import Mathlib

/-!
# A shallow embedding of the CABSL option-execution engine

This file models the core of `src/include/Cabsl.h` (the CABSL 2 engine):
the per-option context (`OptionContext`, Cabsl.h:1027-1059), the execution
scope (`OptionExecution`, Cabsl.h:1065-1175), the option registry and
dispatcher (`OptionInfos`, Cabsl.h:1201-1309), the frame operations
(`beginFrame`/`execute`/`endFrame`, Cabsl.h:1361-1390), the definition
loading machinery (`_CABSL_INIT_DEFS_I`, Cabsl.h:1557-1570, together with
`cabsl::InFileStream` from the repository's InFileStream header), and the
control flow generated by the `option` / `initial_state` / `state` /
`target_state` / `aborted_state` / `common_transition` / `transition` /
`action` macros (Cabsl.h:1939-2003).

Modelling conventions:
* Frame timestamps are `Nat`.  The C++ engine stores them in 32-bit
  `unsigned`; no claim depends on wrap-around, and the host contract
  requires progressing stamps, so timestamps are kept abstract.  The
  sentinel `static_cast<unsigned>(-1)` used to initialize `lastFrame` and
  `lastSelectFrame` (Cabsl.h:1041-1042) is kept literally as `2^32 - 1`.
* Behaviors address option contexts by option name instead of by a byte
  offset into the behavior object; `reinterpret_cast` offset arithmetic is
  not representable in a shallow embedding.
* Decision trees of `transition` and `common_transition` blocks are
  arbitrary functions from the option's context and the current frame time
  to an optional `goto` target (a state name); per the option body
  protocol they are pure decision procedures.
* Action blocks are modelled by the sequence of sub-option invocations
  they perform (direct calls and `select_option` calls); other host
  statements in an action block do not touch the engine state.  Argument
  and state-variable streaming into the activation graph (`addArgument`,
  `_CABSL_STREAM_ARG/VAR`) produces diagnostic strings only and is
  modelled by an empty argument list.
* Fields of `OptionContext` that C++ leaves uninitialized until first use
  (`state`, `stateName`, `optionStart`, `stateStart`, `stateType`,
  `subOptionStateType`) receive fixed default values; the engine
  overwrites them before any use that the claims observe.
* The interpreter `run` is fuel-indexed; `none` means the execution did
  not complete within the fuel or reached undefined behavior (the null
  member-function-pointer call of the `"none"` descriptor).
-/

/-- `OptionContext::StateType` (Cabsl.h:1031-1037): the four kinds of
states (`normalState`, `initialState` for `initial_state`, `targetState`
for `target_state`, `abortedState` for `aborted_state`). -/
inductive StateType where
  | normalState
  | initialState
  | targetState
  | abortedState
deriving DecidableEq

/-- The sentinel `static_cast<unsigned>(-1)` that initializes
`OptionContext::lastFrame` and `lastSelectFrame` (Cabsl.h:1041-1042). -/
def unsignedMinusOne : Nat := 4294967295

/-- `cabsl::Cabsl::OptionContext` (Cabsl.h:1027-1059): the persistent
state of one option.  Defaults model the initial member values: only
`lastFrame`, `lastSelectFrame` (sentinel) and `defs` (null) are
initialized in C++; the remaining fields are indeterminate until the
engine writes them and default to harmless fixed values here.  The `vars`
storage pointer is not modelled (no claim concerns state variables). -/
structure OptionContext where
  state : Int := 0
  stateName : String := ""
  lastFrame : Nat := unsignedMinusOne
  lastSelectFrame : Nat := unsignedMinusOne
  optionStart : Nat := 0
  stateStart : Nat := 0
  stateType : StateType := .normalState
  subOptionStateType : StateType := .normalState
  addedToGraph : Bool := false
  transitionExecuted : Bool := false
  hasCommonTransition : Bool := false
  defs : Option Unit := none
deriving DecidableEq

/-- `cabsl::ActivationGraph::Node` (ActivationGraph header): one record of
the activation graph.  `optionTime`/`stateTime` are the differences
`_currentFrameTime - optionStart` / `- stateStart` (exact on `Int`; the
C++ unsigned subtraction agrees whenever time progresses). -/
structure GraphNode where
  option : String
  depth : Int
  state : String
  optionTime : Int
  stateTime : Int
  arguments : List String
deriving DecidableEq

/-- The state of one `cabsl::Cabsl` behavior instance (Cabsl.h:1333-1343):
all option contexts, the published state-type slot `stateType`
(Cabsl.h:1335), `lastFrameTime`, `depth`, the optional activation graph
sink, `definitionsInitialized`, and `_currentFrameTime`.  The thread-local
`_theInstance` pointer is implicit (a single behavior instance is
modelled). -/
structure Cabsl where
  ctxs : String → OptionContext
  stateType : StateType
  lastFrameTime : Nat
  depth : Int
  activationGraph : Option (List GraphNode)
  definitionsInitialized : Bool
  currentFrameTime : Nat

/-- Write one option's context (the engine mutates contexts through
references into the behavior object). -/
def setCtx (S : Cabsl) (n : String) (c : OptionContext) : Cabsl :=
  { S with ctxs := fun m => if m = n then c else S.ctxs m }

/-- Update one option's context with a function. -/
def modifyCtx (S : Cabsl) (n : String) (f : OptionContext → OptionContext) : Cabsl :=
  setCtx S n (f (S.ctxs n))

/-- A freshly constructed behavior instance: every context is
default-constructed, `stateType = normalState`, `lastFrameTime = 0`,
`depth = 0`, `definitionsInitialized = false`, `_currentFrameTime = 0`
(Cabsl.h:1335-1343, 1350-1354).  `graphAttached` tells whether an
`ActivationGraph` was passed to the constructor. -/
def initialCabsl (graphAttached : Bool) : Cabsl :=
  { ctxs := fun _ => {}
    stateType := .normalState
    lastFrameTime := 0
    depth := 0
    activationGraph := if graphAttached then some [] else none
    definitionsInitialized := false
    currentFrameTime := 0 }

/-- `OptionExecution::OptionExecution` (Cabsl.h:1091-1107): the
construction contract of the execution scope for option `n`.  If the
option was not active in the previous or current frame, reset to the
initial state; if it was not even selected, clear the sub-option state
kind; clear the per-cycle latches; increment the depth. -/
def scopeEnter (n : String) (S : Cabsl) : Cabsl :=
  let c := S.ctxs n
  let c :=
    if c.lastFrame ≠ S.lastFrameTime ∧ c.lastFrame ≠ S.currentFrameTime then
      { c with optionStart := S.currentFrameTime
               stateStart := S.currentFrameTime
               state := 0
               stateType := .initialState }
    else c
  let c :=
    if c.lastSelectFrame ≠ S.lastFrameTime ∧ c.lastSelectFrame ≠ S.currentFrameTime then
      { c with subOptionStateType := .normalState }
    else c
  let c := { c with addedToGraph := false
                    transitionExecuted := false
                    hasCommonTransition := false }
  { setCtx S n c with depth := S.depth + 1 }

/-- `OptionExecution::addToActivationGraph` (Cabsl.h:1163-1174): append a
node for option `n` unless it was already added this frame or no graph
sink is attached.  Arguments are modelled as the empty list (argument
rendering is diagnostic only). -/
def addToActivationGraph (S : Cabsl) (n : String) : Cabsl :=
  let c := S.ctxs n
  match S.activationGraph with
  | some g =>
    if ¬c.addedToGraph then
      let node : GraphNode :=
        { option := n
          depth := S.depth
          state := c.stateName
          optionTime := (S.currentFrameTime : Int) - (c.optionStart : Int)
          stateTime := (S.currentFrameTime : Int) - (c.stateStart : Int)
          arguments := [] }
      { setCtx S n { c with addedToGraph := true } with activationGraph := some (g ++ [node]) }
    else S
  | none => S

/-- `OptionExecution::~OptionExecution` (Cabsl.h:1112-1123): the
destruction contract.  Unless this was a `select_option` probe that ended
still in the initial state, emit the graph node and stamp `lastFrame`;
always stamp `lastSelectFrame`; decrement the depth; grab the engine's
published state-type slot into `subOptionStateType` and publish this
option's state type. -/
def scopeExit (n : String) (fromSelect : Bool) (S : Cabsl) : Cabsl :=
  let S :=
    if ¬fromSelect ∨ (S.ctxs n).stateType ≠ .initialState then
      let S := addToActivationGraph S n
      modifyCtx S n fun c => { c with lastFrame := S.currentFrameTime }
    else S
  let S := modifyCtx S n fun c => { c with lastSelectFrame := S.currentFrameTime }
  let S := { S with depth := S.depth - 1 }
  let published := (S.ctxs n).stateType
  let S := modifyCtx S n fun c => { c with subOptionStateType := S.stateType }
  { S with stateType := published }

/-- `OptionExecution::updateState` (Cabsl.h:1130-1140): executed whenever
a state is changed (the label code of the `_state` macro).  Sets the
transition latch; on a real change (new id differs) records the new id
and kind and restarts the state clock.  The debug assertion
`assert(hasCommonTransition != transitionExecuted)` is a programmer-error
check and has no effect on the modelled state. -/
def updateState (c : OptionContext) (now : Nat) (newState : Int) (t : StateType) :
    OptionContext :=
  let c := { c with transitionExecuted := true }
  if c.state ≠ newState then
    { c with state := newState, stateStart := now, stateType := t }
  else c

/-- The `option_time` macro (Cabsl.h:1987):
`int(_currentFrameTime - context.optionStart)`, exact on `Int`. -/
def option_time (c : OptionContext) (now : Nat) : Int :=
  (now : Int) - (c.optionStart : Int)

/-- The `state_time` macro (Cabsl.h:1990):
`int(_currentFrameTime - context.stateStart)`, exact on `Int`. -/
def state_time (c : OptionContext) (now : Nat) : Int :=
  (now : Int) - (c.stateStart : Int)

/-- The `action_done` macro (Cabsl.h:1993). -/
def action_done (c : OptionContext) : Bool :=
  c.subOptionStateType == .targetState

/-- The `action_aborted` macro (Cabsl.h:1996). -/
def action_aborted (c : OptionContext) : Bool :=
  c.subOptionStateType == .abortedState

/-- One sub-option invocation inside an `action` block: a direct call to
another option (a plain C++ member-function call, Cabsl.h:1778-1779) or a
`select_option` call (the `select_option` macro, Cabsl.h:2003). -/
inductive ActionStep where
  | callOption (name : String)
  | selectOption (names : List String)

/-- One state declaration of an option body: its label name, its stable
id (`0` for the initial state, the positive `__LINE__` otherwise,
Cabsl.h:1417-1443 and 1939-1943), its kind, the optional `transition`
decision tree, and the optional `action` block (its sub-option calls). -/
structure StateDecl where
  name : String
  line : Int
  type : StateType
  trans : Option (OptionContext → Nat → Option String)
  action : Option (List ActionStep)

/-- Whether an option declares constant definitions, and whether they are
file-loaded: `defs(...)` initializes in place, `load(...)` reads
`<name>.cfg` through `cabsl::InFileStream` (`_CABSL_INIT_DEFS_*`,
Cabsl.h:1549-1570).  For `load`, the declared field names are listed in
declaration order. -/
inductive DefsKind where
  | noDefs
  | defsInline
  | load (fields : List String)
deriving DecidableEq

/-- One option of the behavior: its name, whether it declares `args(...)`
(only argument-less options are registered for execution by name,
Cabsl.h:1236-1252), its definitions kind, the optional
`common_transition` decision tree, and its state declarations in source
order. -/
structure OptionDef where
  name : String
  hasArgs : Bool := false
  defsKind : DefsKind := .noDefs
  common : Option (OptionContext → Nat → Option String) := none
  states : List StateDecl

/-- A behavior: the list of options declared in the behavior class, in
registration order. -/
abbrev Program := List OptionDef

/-- The option registry lookup (`OptionInfos::optionsByName`,
Cabsl.h:1204, populated by `init` and `add`, Cabsl.h:1228-1252).
`some none` is the `"none"` sentinel descriptor registered by `init` with
a null member-function pointer and context offset 0 (Cabsl.h:1232); it is
inserted first, so a behavior option named `"none"` is never registered
over it (`add` registers a name only once, Cabsl.h:1250).  `some (some od)`
is the descriptor of a registered (argument-less) option, `none` means
the name is absent. -/
def registryLookup (P : Program) (n : String) : Option (Option OptionDef) :=
  if n = "none" then some none
  else
    match P.find? (fun od => od.name == n && !od.hasArgs) with
    | some od => some (some od)
    | none => none

/-- The execution phases of the engine, mirroring the control flow of the
macro-expanded code:
* `invoke od fromSelect` — one full option invocation: construct the
  `OptionExecution` scope, run the body (common transition, then the
  fall-through over the state macros), destruct the scope
  (Cabsl.h:1273-1285 for the registry path, Cabsl.h:1778-1779 for direct
  calls).
* `states o body sts` — control is at the `_state` macro of the first
  state of the suffix `sts` (Cabsl.h:1952-1959): clear
  `hasCommonTransition`, and if the state id matches, set the state name
  and run the state body (transition latch, decision tree, action).
* `goto o body target` — a `goto` to the label `target`: the label code
  runs `updateState` and falls through into that state's `_state` macro
  (Cabsl.h:1952-1959).
* `steps l` — the sub-option invocations of an action block, in order.
* `select names` — `OptionInfos::execute` on a list (Cabsl.h:1294-1300).
-/
inductive Job where
  | invoke (od : OptionDef) (fromSelect : Bool)
  | states (oname : String) (body : OptionDef) (sts : List StateDecl)
  | goto (oname : String) (body : OptionDef) (target : String)
  | steps (l : List ActionStep)
  | select (names : List String)

/-- The fuel-indexed interpreter.  The `Bool` of the result is the value
of the C++ expression the job models when it has one: for `invoke` the
return value `context.stateType != initialState` of
`OptionInfos::execute` (Cabsl.h:1281), for `select` the return value of
the list version (Cabsl.h:1294-1300); phase jobs yield `false`.  `none`
means the run did not complete in the given fuel or reached the undefined
call through the null member pointer of the `"none"` descriptor. -/
def run (P : Program) : Nat → Job → Cabsl → Option (Bool × Cabsl)
  | 0, _, _ => none
  | gas+1, job, S =>
    match job with
    | .invoke od fromSelect =>
      -- OptionExecution constructed as the call argument (Cabsl.h:1280),
      -- then the body runs, then the scope is destroyed and the value of
      -- `context.stateType != initialState` is returned (Cabsl.h:1281).
      let S1 := scopeEnter od.name S
      let bodyRes :=
        match od.common with
        | some dec =>
          -- the common_transition macro sets the flag (Cabsl.h:1965-1966),
          -- then its decision tree runs; a goto jumps to a state label,
          -- otherwise control falls into the first _state macro.
          let S2 := modifyCtx S1 od.name fun c => { c with hasCommonTransition := true }
          match dec (S2.ctxs od.name) S2.currentFrameTime with
          | some target => run P gas (.goto od.name od target) S2
          | none => run P gas (.states od.name od od.states) S2
        | none => run P gas (.states od.name od od.states) S1
      bodyRes.map fun p =>
        let S4 := scopeExit od.name fromSelect p.2
        (decide ((S4.ctxs od.name).stateType ≠ .initialState), S4)
    | .states o body sts =>
      match sts with
      | [] => some (false, S)
      | st :: rest =>
        -- _state macro (Cabsl.h:1952-1959): `hasCommonTransition = false;`
        -- then `if(state == line && (stateName = #name))`.
        let S1 := modifyCtx S o fun c => { c with hasCommonTransition := false }
        if (S1.ctxs o).state = st.line then
          let S2 := modifyCtx S1 o fun c => { c with stateName := st.name }
          -- transition macro (Cabsl.h:1975-1976):
          -- `if((transitionExecuted ^= true))` — flip the latch, run the
          -- decision tree only if the flipped latch is now set.
          let S3 :=
            match st.trans with
            | some _ => modifyCtx S2 o fun c =>
                { c with transitionExecuted := !c.transitionExecuted }
            | none => S2
          let fired : Option String :=
            match st.trans with
            | some dec =>
              if (S3.ctxs o).transitionExecuted then dec (S3.ctxs o) S3.currentFrameTime
              else none
            | none => none
          match fired with
          | some target => run P gas (.goto o body target) S3
          | none =>
            -- action macro (Cabsl.h:1984): add to the activation graph,
            -- then the action statements (sub-option calls) run; then
            -- control falls through to the next state macro.
            match st.action with
            | some steps =>
              let S5 := addToActivationGraph S3 o
              (run P gas (.steps steps) S5).bind fun p =>
                run P gas (.states o body rest) p.2
            | none => run P gas (.states o body rest) S3
        else run P gas (.states o body rest) S1
    | .goto o body target =>
      -- the goto jumps to the label inside the target state's `if(false)`
      -- block, runs `updateState(line, stateType)` and falls out into the
      -- target state's own _state macro code (Cabsl.h:1952-1959).
      match body.states.dropWhile (fun st => st.name != target) with
      | [] => some (false, S)  -- no such label: not compilable C++; no-op
      | st :: rest =>
        let S1 := modifyCtx S o fun c => updateState c S.currentFrameTime st.line st.type
        run P gas (.states o body (st :: rest)) S1
    | .steps l =>
      match l with
      | [] => some (false, S)
      | step :: rest =>
        match step with
        | .callOption nm =>
          -- a direct sub-option call resolves the member function at
          -- compile time; an unknown name would not compile (no-op here).
          match P.find? (fun od => od.name == nm) with
          | some od =>
            (run P gas (.invoke od false) S).bind fun p =>
              run P gas (.steps rest) p.2
          | none => run P gas (.steps rest) S
        | .selectOption names =>
          (run P gas (.select names) S).bind fun p =>
            run P gas (.steps rest) p.2
    | .select names =>
      -- OptionInfos::execute on a list (Cabsl.h:1294-1300): invoke each
      -- name with fromSelect = true, stop at the first that returns true.
      match names with
      | [] => some (false, S)
      | n :: rest =>
        match registryLookup P n with
        | none => run P gas (.select rest) S
        | some none => none
        | some (some od) =>
          (run P gas (.invoke od true) S).bind fun p =>
            if p.1 then some (true, p.2) else run P gas (.select rest) p.2

/-- `OptionInfos::execute(behavior, option, fromSelect)` (Cabsl.h:1273-1285):
look the name up; if absent return `false` without running anything; if
the descriptor is the `"none"` sentinel, the execution proceeds into the
call through the null member-function pointer (undefined, `none`);
otherwise run the option inside an `OptionExecution` scope and return
`context.stateType != initialState`. -/
def OptionInfos_execute (P : Program) (gas : Nat) (n : String) (fromSelect : Bool)
    (S : Cabsl) : Option (Bool × Cabsl) :=
  match registryLookup P n with
  | none => some (false, S)
  | some none => none
  | some (some od) => run P gas (.invoke od fromSelect) S

/-- Errors escaping the definitions-loading machinery: the
`cabsl::InFileStream` constructor throws when the `.cfg` file is missing
(it enables stream exceptions before `open`), and `read` throws when the
expected name (or the colon / value / newline) does not match. -/
inductive LoadError where
  | missingFile (optionName : String)
  | badName (fieldName : String)
deriving DecidableEq

/-- One `name: value` line of a `.cfg` definitions file. -/
structure DefLine where
  name : String
  value : Int
deriving DecidableEq

/-- The file system visible to `cabsl::InFileStream`: maps the basename
(the option name; the stream appends `.cfg`) to the file's lines, or
`none` when the file does not exist.  The character-level `expect`/`>>`
parsing of `InFileStream` is abstracted to line-level matching: each
`read(name, value)` consumes one `name: value` line and fails when the
name at the head of the stream differs (a malformed or unknown name). -/
abbrev FileSys := String → Option (List DefLine)

/-- `_defs->_read(_stream)` (`_CABSL_STRUCT_DEFS_IV`, Cabsl.h:1512-1529):
read the declared fields in declaration order, one line each; a mismatch
between the declared name and the line at the stream head fails (the
`expect` of `InFileStream::read` sets the fail bit, which throws). -/
def readDefs : List String → List DefLine → Except LoadError Unit
  | [], _ => .ok ()
  | f :: fs, lines =>
    match lines with
    | [] => .error (.badName f)
    | l :: rest => if l.name = f then readDefs fs rest else .error (.badName f)

/-- The generated init handler `_<name>Init` (`_CABSL_INIT_DEFS_I`,
Cabsl.h:1557-1570): if the option's `defs` storage is still null,
allocate it and, for `load` options, open `<name>.cfg` and read the
declared fields.  Handlers for all options with `defs`/`load` are
registered during static initialization (through
`RegisterFunction::Registrar`, Cabsl.h:1316-1329) and run at the first
`beginFrame`. -/
def initHandler (files : FileSys) (od : OptionDef) (S : Cabsl) : Except LoadError Cabsl :=
  match od.defsKind with
  | .noDefs => .ok S
  | .defsInline =>
    if (S.ctxs od.name).defs = none then
      .ok (modifyCtx S od.name fun c => { c with defs := some () })
    else .ok S
  | .load fields =>
    if (S.ctxs od.name).defs = none then
      let S := modifyCtx S od.name fun c => { c with defs := some () }
      match files od.name with
      | none => .error (.missingFile od.name)
      | some lines =>
        match readDefs fields lines with
        | .ok _ => .ok S
        | .error e => .error e
    else .ok S

/-- `OptionInfos::executeInitHandlers` (Cabsl.h:1303-1308): run all
registered init handlers in registration order; an exception thrown by a
handler escapes. -/
def executeInitHandlers (files : FileSys) : List OptionDef → Cabsl → Except LoadError Cabsl
  | [], S => .ok S
  | od :: rest, S =>
    match initHandler files od S with
    | .ok S' => executeInitHandlers files rest S'
    | .error e => .error e

/-- `Cabsl::beginFrame` (Cabsl.h:1361-1372): set `_currentFrameTime`,
clear the activation graph if attached, and on the first call run all
registered definition init handlers and set `definitionsInitialized`
(which stays `false` when a handler throws, because the assignment
follows the call). -/
def beginFrame (P : Program) (files : FileSys) (frameTime : Nat) (S : Cabsl) :
    Except LoadError Cabsl :=
  let S := { S with currentFrameTime := frameTime }
  let S := { S with activationGraph := S.activationGraph.map fun _ => [] }
  if S.definitionsInitialized then .ok S
  else
    match executeInitHandlers files P S with
    | .ok S' => .ok { S' with definitionsInitialized := true }
    | .error e => .error e

/-- `Cabsl::endFrame` (Cabsl.h:1385-1390): remember the frame time.  The
debug assertion `assert(depth == 0)` and the clearing of the thread-local
`_theInstance` are not part of the modelled state. -/
def endFrame (S : Cabsl) : Cabsl :=
  { S with lastFrameTime := S.currentFrameTime }

/-- `Cabsl::execute(root)` (Cabsl.h:1379-1382): run a root option by
name; the boolean result of `OptionInfos::execute` is discarded. -/
def Cabsl_execute (P : Program) (gas : Nat) (root : String) (S : Cabsl) : Option Cabsl :=
  (OptionInfos_execute P gas root false S).map (·.2)

/-! ## Well-formedness of option bodies and behaviors

These predicates express the structural guarantees that the C++
compilation of an option body provides: state ids are the distinct
`__LINE__` numbers of their declarations (at most one state per line,
enforced by the label mechanism), the initial state (and only it) has id
`0` and kind `initialState` (`initial_state` passes `0` and
`initialState`, the other state macros pass `__LINE__ ≥ 1` and their
kind). -/

/-- Structural well-formedness of a body: state ids are pairwise
distinct, and a state has id `0` exactly when it is the initial state. -/
def BodyWF (od : OptionDef) : Prop :=
  od.states.Pairwise (fun a b => a.line ≠ b.line) ∧
  ∀ st ∈ od.states, (st.line = 0 ↔ st.type = .initialState)

/-- The option's initial state has no `action` block. -/
def InitNoAction (od : OptionDef) : Prop :=
  ∀ st ∈ od.states, st.line = 0 → st.action = none

/-- The context agrees with the body: whenever the current state id is a
declared id, the current state kind is that state's declared kind.  This
is an invariant of engine runs (the reset writes `(0, initialState)` and
`updateState` writes a declared pair). -/
def StateLink (od : OptionDef) (c : OptionContext) : Prop :=
  ∀ st ∈ od.states, c.state = st.line → c.stateType = st.type

/-- No action block of the body re-enters the option itself: running the
sub-option invocations of any action block of `od` leaves `od`'s own
context untouched.  This is the option body protocol's requirement that
options form an acyclic call graph (an option never calls itself through
its sub-options). -/
def NoReentry (P : Program) (od : OptionDef) : Prop :=
  ∀ st ∈ od.states, ∀ steps, st.action = some steps →
    ∀ g S₁ b S₂, run P g (.steps steps) S₁ = some (b, S₂) →
      S₂.ctxs od.name = S₁.ctxs od.name

/-- Replace the decision tree of the `transition` block of every state of
`od` with id `v` (keeping states without a `transition` block without
one).  Used to express that a decision tree is never evaluated: the run
is the same for every replacement. -/
def replaceTrans (od : OptionDef) (v : Int)
    (d : OptionContext → Nat → Option String) : OptionDef :=
  { od with states := od.states.map fun st =>
      if st.line = v then { st with trans := st.trans.map fun _ => d } else st }

/-- Pointwise relation between state declarations that agree on
everything except the decision tree inside their `transition` block
(presence of the block must agree, the tree may differ). -/
def TransEq (a b : StateDecl) : Prop :=
  a.name = b.name ∧ a.line = b.line ∧ a.type = b.type ∧
  a.trans.isSome = b.trans.isSome ∧ a.action = b.action

/-- The time bookkeeping invariant of one context: the state clock never
predates the option clock, and neither lies in the future.  `now` is the
engine's `_currentFrameTime`. -/
def TimeInv (c : OptionContext) (now : Nat) : Prop :=
  c.optionStart ≤ c.stateStart ∧ c.stateStart ≤ now

/-- The time bookkeeping invariant for every context of the behavior. -/
def AllTimeInv (S : Cabsl) : Prop :=
  ∀ n, TimeInv (S.ctxs n) S.currentFrameTime

/-- Whether loading the definitions of a `load` option fails: the `.cfg`
file is missing, or reading the declared fields fails (malformed or
unknown name). -/
def loadFails (files : FileSys) (name : String) (fields : List String) : Prop :=
  match files name with
  | none => True
  | some lines =>
    match readDefs fields lines with
    | .ok _ => False
    | .error _ => True

/-- `S'` differs from `S` at most in the `defs` storages of the option
contexts: every other context field and every engine field agrees. -/
def DefsOnlyDiff (S S' : Cabsl) : Prop :=
  (∀ n, S'.ctxs n = { S.ctxs n with defs := (S'.ctxs n).defs }) ∧
  S'.stateType = S.stateType ∧ S'.lastFrameTime = S.lastFrameTime ∧
  S'.depth = S.depth ∧ S'.activationGraph = S.activationGraph ∧
  S'.definitionsInitialized = S.definitionsInitialized ∧
  S'.currentFrameTime = S.currentFrameTime

/-! ## Concrete behaviors used by counterexamples and witnesses -/

/-- An empty file system: no `.cfg` file exists. -/
def noFiles : FileSys := fun _ => none

/-- A behavior state directly after `beginFrame(1)` on a fresh instance
with no definition initializers pending. -/
def frame1 (graphAttached : Bool) : Cabsl :=
  { initialCabsl graphAttached with currentFrameTime := 1, definitionsInitialized := true }

/-- `beginFrame` with the `Except` result turned into an `Option` (for
composing concrete multi-cycle traces). -/
def beginFrameO (P : Program) (files : FileSys) (t : Nat) (S : Cabsl) : Option Cabsl :=
  (beginFrame P files t S).toOption

/-- An option with no states at all: its body is a plain statement block
(`option(Z) { ... }` with no state macros). -/
def zeroStateOption : OptionDef :=
  { name := "Z", states := [] }

def zeroStateProgram : Program := [zeroStateOption]

/-- An option going unconditionally from its initial state to a target
state, invoking no sub-options anywhere. -/
def doneOption : OptionDef :=
  { name := "T"
    states :=
      [ { name := "t0", line := 0, type := .initialState
          trans := some fun _ _ => some "done", action := none }
      , { name := "done", line := 9, type := .targetState
          trans := none, action := none } ] }

def doneProgram : Program := [doneOption]

/-- An option that always stays in its initial state, whose initial state
has an (empty) `action` block. -/
def decliningOption : OptionDef :=
  { name := "A"
    states :=
      [ { name := "a0", line := 0, type := .initialState
          trans := none, action := some [] } ] }

/-- An option that unconditionally leaves its initial state. -/
def leavingOption : OptionDef :=
  { name := "B"
    states :=
      [ { name := "b0", line := 0, type := .initialState
          trans := some fun _ _ => some "b1", action := none }
      , { name := "b1", line := 7, type := .normalState
          trans := none, action := none } ] }

def selectProgram : Program := [decliningOption, leavingOption]

/-- The option of the spec's "common transition wins" scenario: a common
transition that unconditionally goes to `s2`, and a state `s1` whose own
transition would go to `s3`. -/
def commonWinsOption : OptionDef :=
  { name := "R"
    common := some fun _ _ => some "s2"
    states :=
      [ { name := "s0", line := 0, type := .initialState
          trans := some fun _ _ => none, action := none }
      , { name := "s1", line := 10, type := .normalState
          trans := some fun _ _ => some "s3", action := none }
      , { name := "s2", line := 20, type := .normalState
          trans := some fun _ _ => none, action := some [] }
      , { name := "s3", line := 30, type := .normalState
          trans := none, action := none } ] }

def commonWinsProgram : Program := [commonWinsOption]

/-- A behavior state in which option `R` is continuously active (it ran
in the previous frame, stamp `0`) and currently in state `s1` (id 10),
with the current frame having stamp `1`. -/
def commonWinsState : Cabsl :=
  { ctxs := fun m =>
      if m = "R" then
        { state := 10, stateName := "s1", lastFrame := 0, lastSelectFrame := 0
          optionStart := 0, stateStart := 0, stateType := .normalState }
      else {}
    stateType := .normalState
    lastFrameTime := 0
    depth := 0
    activationGraph := some []
    definitionsInitialized := true
    currentFrameTime := 1 }

/-- An option whose definitions are loaded from `L.cfg` (a single
declared constant `a`). -/
def loadOption : OptionDef :=
  { name := "L", defsKind := .load ["a"]
    states :=
      [ { name := "l0", line := 0, type := .initialState
          trans := none, action := none } ] }

/-- A root option that never calls `L`. -/
def plainRootOption : OptionDef :=
  { name := "R"
    states :=
      [ { name := "r0", line := 0, type := .initialState
          trans := none, action := none } ] }

def loadProgram : Program := [loadOption, plainRootOption]

/-- A file system in which `L.cfg` exists but starts with a line whose
name (`b`) is not the declared constant name (`a`). -/
def badFiles : FileSys := fun n => if n = "L" then some [⟨"b", 0⟩] else none

/-- An option with in-place constant definitions (`defs(...)`). -/
def defsOption : OptionDef :=
  { name := "D", defsKind := .defsInline
    states :=
      [ { name := "d0", line := 0, type := .initialState
          trans := none, action := none } ] }

def defsProgram : Program := [defsOption]

/-! ## Projection lemmas for the primitive operations -/

theorem setCtx_ctxs_self (S : Cabsl) (n : String) (c : OptionContext) :
    (setCtx S n c).ctxs n = c := by
  simp [setCtx]

theorem setCtx_ctxs_ne (S : Cabsl) (n m : String) (c : OptionContext) (h : m ≠ n) :
    (setCtx S n c).ctxs m = S.ctxs m := by
  simp [setCtx, h]

theorem setCtx_setCtx (S : Cabsl) (n : String) (c c' : OptionContext) :
    setCtx (setCtx S n c) n c' = setCtx S n c' := by
  simp only [setCtx]
  congr 1
  funext m
  by_cases h : m = n <;> simp [h]

theorem modifyCtx_ctxs_self (S : Cabsl) (n : String) (f : OptionContext → OptionContext) :
    (modifyCtx S n f).ctxs n = f (S.ctxs n) := by
  simp [modifyCtx, setCtx_ctxs_self]

theorem modifyCtx_ctxs_ne (S : Cabsl) (n m : String) (f : OptionContext → OptionContext)
    (h : m ≠ n) : (modifyCtx S n f).ctxs m = S.ctxs m := by
  simp [modifyCtx, setCtx_ctxs_ne _ _ _ _ h]

theorem setCtx_stateType (S : Cabsl) (n : String) (c : OptionContext) :
    (setCtx S n c).stateType = S.stateType := rfl

theorem setCtx_activationGraph (S : Cabsl) (n : String) (c : OptionContext) :
    (setCtx S n c).activationGraph = S.activationGraph := rfl

theorem setCtx_currentFrameTime (S : Cabsl) (n : String) (c : OptionContext) :
    (setCtx S n c).currentFrameTime = S.currentFrameTime := rfl

theorem setCtx_lastFrameTime (S : Cabsl) (n : String) (c : OptionContext) :
    (setCtx S n c).lastFrameTime = S.lastFrameTime := rfl

theorem modifyCtx_stateType (S : Cabsl) (n : String) (f : OptionContext → OptionContext) :
    (modifyCtx S n f).stateType = S.stateType := rfl

theorem modifyCtx_activationGraph (S : Cabsl) (n : String) (f : OptionContext → OptionContext) :
    (modifyCtx S n f).activationGraph = S.activationGraph := rfl

theorem modifyCtx_currentFrameTime (S : Cabsl) (n : String) (f : OptionContext → OptionContext) :
    (modifyCtx S n f).currentFrameTime = S.currentFrameTime := rfl

theorem scopeEnter_activationGraph (n : String) (S : Cabsl) :
    (scopeEnter n S).activationGraph = S.activationGraph := rfl

theorem scopeEnter_currentFrameTime (n : String) (S : Cabsl) :
    (scopeEnter n S).currentFrameTime = S.currentFrameTime := rfl

theorem scopeEnter_lastFrameTime (n : String) (S : Cabsl) :
    (scopeEnter n S).lastFrameTime = S.lastFrameTime := rfl

theorem scopeEnter_stateType (n : String) (S : Cabsl) :
    (scopeEnter n S).stateType = S.stateType := rfl

theorem scopeEnter_ctxs_ne (n m : String) (S : Cabsl) (h : m ≠ n) :
    (scopeEnter n S).ctxs m = S.ctxs m := by
  simp [scopeEnter, setCtx, h]

theorem addToActivationGraph_ctxs_ne (S : Cabsl) (n m : String) (h : m ≠ n) :
    (addToActivationGraph S n).ctxs m = S.ctxs m := by
  by_cases ha : (S.ctxs n).addedToGraph <;>
    cases hg : S.activationGraph <;>
      simp [addToActivationGraph, hg, ha, setCtx, h]

theorem addToActivationGraph_ctxs_self (S : Cabsl) (n : String) :
    (addToActivationGraph S n).ctxs n = S.ctxs n ∨
    (addToActivationGraph S n).ctxs n = { S.ctxs n with addedToGraph := true } := by
  by_cases ha : (S.ctxs n).addedToGraph <;>
    cases hg : S.activationGraph
  · left; simp [addToActivationGraph, hg, ha]
  · left; simp [addToActivationGraph, hg, ha]
  · left; simp [addToActivationGraph, hg, ha]
  · right; simp [addToActivationGraph, hg, ha, setCtx]

theorem addToActivationGraph_currentFrameTime (S : Cabsl) (n : String) :
    (addToActivationGraph S n).currentFrameTime = S.currentFrameTime := by
  by_cases ha : (S.ctxs n).addedToGraph <;>
    cases hg : S.activationGraph <;>
      simp [addToActivationGraph, hg, ha, setCtx]

theorem addToActivationGraph_stateType (S : Cabsl) (n : String) :
    (addToActivationGraph S n).stateType = S.stateType := by
  by_cases ha : (S.ctxs n).addedToGraph <;>
    cases hg : S.activationGraph <;>
      simp [addToActivationGraph, hg, ha, setCtx]

/-- The destructor never changes the option's recorded state id and
kind; it only stamps frames, emits the graph node, and moves the
state-kind signals. -/
theorem scopeExit_ctxs_self_state (n : String) (fromSelect : Bool) (S : Cabsl) :
    ((scopeExit n fromSelect S).ctxs n).state = (S.ctxs n).state ∧
    ((scopeExit n fromSelect S).ctxs n).stateType = (S.ctxs n).stateType := by
  unfold scopeExit
  split
  · rcases addToActivationGraph_ctxs_self S n with h | h <;>
      simp [modifyCtx, setCtx, h]
  · simp [modifyCtx, setCtx]

/-- The destructor publishes this option's state kind into the engine's
slot (Cabsl.h:1122). -/
theorem scopeExit_publishes (n : String) (fromSelect : Bool) (S : Cabsl) :
    (scopeExit n fromSelect S).stateType = (S.ctxs n).stateType := by
  unfold scopeExit
  split
  · rcases addToActivationGraph_ctxs_self S n with h | h <;>
      simp [modifyCtx, setCtx, h]
  · simp [modifyCtx, setCtx]

/-- The destructor grabs the engine's slot (the state kind of the last
sub-option scope that closed) into `subOptionStateType` (Cabsl.h:1121). -/
theorem scopeExit_grabs (n : String) (fromSelect : Bool) (S : Cabsl) :
    ((scopeExit n fromSelect S).ctxs n).subOptionStateType = S.stateType := by
  unfold scopeExit
  split
  · rcases addToActivationGraph_ctxs_self S n with h | h <;>
      simp [modifyCtx, setCtx, h, addToActivationGraph_stateType]
  · simp [modifyCtx, setCtx]

/-- A `select_option` probe that ended still in the initial state leaves
the activation graph untouched and does not stamp `lastFrame`
(Cabsl.h:1114-1118). -/
theorem scopeExit_declined (n : String) (S : Cabsl)
    (h : (S.ctxs n).stateType = .initialState) :
    (scopeExit n true S).activationGraph = S.activationGraph ∧
    ((scopeExit n true S).ctxs n).lastFrame = (S.ctxs n).lastFrame := by
  unfold scopeExit
  rw [if_neg (by simp [h])]
  simp [modifyCtx, setCtx]

/-! ## Decomposition of one option invocation -/

/-- A completed invocation decomposes into body execution followed by the
scope destructor; the returned boolean is the C++ return expression, the
destructor publishes the option's final state kind into the engine slot
and grabs the previous slot content into `subOptionStateType`. -/
theorem run_invoke_decomp (P : Program) (gas : Nat) (od : OptionDef) (fs : Bool)
    {S : Cabsl} {b : Bool} {S' : Cabsl}
    (h : run P gas (.invoke od fs) S = some (b, S')) :
    ∃ S₃, S' = scopeExit od.name fs S₃ ∧
      b = decide ((S'.ctxs od.name).stateType ≠ .initialState) ∧
      S'.stateType = (S'.ctxs od.name).stateType ∧
      (S'.ctxs od.name).subOptionStateType = S₃.stateType := by
  cases gas with
  | zero => simp [run] at h
  | succ g =>
    simp only [run] at h
    rw [Option.map_eq_some'] at h
    obtain ⟨p, hbody, heq⟩ := h
    simp only [Prod.mk.injEq] at heq
    obtain ⟨hb, hS'⟩ := heq
    refine ⟨p.2, hS'.symm, ?_, ?_, ?_⟩
    · rw [← hb, ← hS']
    · rw [← hS', scopeExit_publishes, (scopeExit_ctxs_self_state od.name fs p.2).2]
    · rw [← hS', scopeExit_grabs]

/-! ## Claim theorems -/

/-- **C2**: if an option was not executed in the previous cycle and not
yet in the current one (its `lastFrame` stamp is neither the engine's
`lastFrameTime` nor its `_currentFrameTime`), then the `OptionExecution`
constructor resets the context: at the start of the option's body the
current state id is `0`, the current state kind is `INITIAL`, and the
option (and state) clock starts at the current cycle
(Cabsl.h:1094-1100). -/
theorem cabsl_initial_reentry_reset (S : Cabsl) (n : String)
    (h1 : (S.ctxs n).lastFrame ≠ S.lastFrameTime)
    (h2 : (S.ctxs n).lastFrame ≠ S.currentFrameTime) :
    ((scopeEnter n S).ctxs n).state = 0 ∧
    ((scopeEnter n S).ctxs n).stateType = .initialState ∧
    ((scopeEnter n S).ctxs n).optionStart = S.currentFrameTime ∧
    ((scopeEnter n S).ctxs n).stateStart = S.currentFrameTime := by
  by_cases hsel : (S.ctxs n).lastSelectFrame ≠ S.lastFrameTime ∧
      (S.ctxs n).lastSelectFrame ≠ S.currentFrameTime <;>
    simp [scopeEnter, setCtx, h1, h2, hsel]

/-- Witness for `cabsl_initial_reentry_reset`: a fresh behavior instance
(the sentinel `lastFrame` differs from both frame stamps). -/
theorem cabsl_initial_reentry_reset_witness :
    (((initialCabsl false).ctxs "X").lastFrame ≠ (initialCabsl false).lastFrameTime ∧
      ((initialCabsl false).ctxs "X").lastFrame ≠ (initialCabsl false).currentFrameTime) ∧
    ((scopeEnter "X" (initialCabsl false)).ctxs "X").state = 0 ∧
    ((scopeEnter "X" (initialCabsl false)).ctxs "X").stateType = .initialState ∧
    ((scopeEnter "X" (initialCabsl false)).ctxs "X").optionStart =
      (initialCabsl false).currentFrameTime ∧
    ((scopeEnter "X" (initialCabsl false)).ctxs "X").stateStart =
      (initialCabsl false).currentFrameTime :=
  ⟨⟨by decide, by decide⟩,
    cabsl_initial_reentry_reset (initialCabsl false) "X" (by decide) (by decide)⟩

/-- **C5**: `OptionInfos::execute` (Cabsl.h:1273-1285) looks the name up
in the registry; when the name is absent it returns `false` without
running anything (the behavior state, including the activation graph, is
returned untouched); when a (non-sentinel) descriptor is found it runs
the option body inside an `ExecutionScope` (the result state is the
destructor's) and returns `true` iff the context's state kind is not
`INITIAL` afterwards. -/
theorem cabsl_invoke_name_lookup (P : Program) (gas : Nat) (n : String) (fs : Bool)
    (S : Cabsl) :
    (registryLookup P n = none → OptionInfos_execute P gas n fs S = some (false, S)) ∧
    (∀ od, registryLookup P n = some (some od) →
      ∀ b S', run P gas (.invoke od fs) S = some (b, S') →
        OptionInfos_execute P gas n fs S = some (b, S') ∧
        b = decide ((S'.ctxs od.name).stateType ≠ .initialState) ∧
        ∃ S₃, S' = scopeExit od.name fs S₃) := by
  constructor
  · intro h
    simp [OptionInfos_execute, h]
  · intro od hod b S' hrun
    refine ⟨by simp [OptionInfos_execute, hod, hrun], ?_, ?_⟩
    · obtain ⟨S₃, _, hb, _, _⟩ := run_invoke_decomp P gas od fs hrun
      exact hb
    · obtain ⟨S₃, hS, _, _, _⟩ := run_invoke_decomp P gas od fs hrun
      exact ⟨S₃, hS⟩

/-- Witness for `cabsl_invoke_name_lookup`: the unknown name `"X"` is a
silent no-op returning `false`, and the registered option `"B"` runs and
returns whether it left its initial state. -/
theorem cabsl_invoke_name_lookup_witness :
    OptionInfos_execute selectProgram 9 "X" false (frame1 true) =
      some (false, frame1 true) ∧
    ∃ b S', run selectProgram 9 (.invoke leavingOption false) (frame1 true) = some (b, S') ∧
      OptionInfos_execute selectProgram 9 "B" false (frame1 true) = some (b, S') ∧
      b = decide ((S'.ctxs "B").stateType ≠ .initialState) ∧
      ∃ S₃, S' = scopeExit "B" false S₃ := by
  refine ⟨(cabsl_invoke_name_lookup selectProgram 9 "X" false (frame1 true)).1 rfl, ?_⟩
  obtain ⟨b, S', hrun⟩ :
      ∃ b S', run selectProgram 9 (.invoke leavingOption false) (frame1 true) =
        some (b, S') := ⟨_, _, rfl⟩
  obtain ⟨hexec, hb, hscope⟩ :=
    (cabsl_invoke_name_lookup selectProgram 9 "B" false (frame1 true)).2
      leavingOption rfl b S' hrun
  exact ⟨b, S', hrun, hexec, hb, hscope⟩

/-- **C9** (the claim is what the README documents; the code diverges):
invoking an option with zero states is *not* a plain function call.  At a
concrete input — a fresh behavior with an activation graph attached,
after `beginFrame(1)` — executing the zero-state option `Z` appends an
activation-graph node for it (with the indeterminate state name, the
model's default `""`), and its `current_state_kind` is set to `INITIAL`
by the constructor's re-entry reset, not left at `NORMAL`: the destructor
(Cabsl.h:1112-1118) adds every non-probe invocation to the graph, and the
constructor (Cabsl.h:1094-1100) resets the kind, regardless of whether
the body declares states. -/
theorem cabsl_zero_state_option_graphed :
    beginFrame zeroStateProgram noFiles 1 (initialCabsl true) = .ok (frame1 true) ∧
    (Cabsl_execute zeroStateProgram 5 "Z" (frame1 true)).map
      (fun Sf => (Sf.activationGraph, (Sf.ctxs "Z").stateType)) =
      some (some [⟨"Z", 1, "", 0, 0, []⟩], .initialState) :=
  ⟨rfl, by decide⟩

/-- **C10**: the registry always contains the `"none"` sentinel
descriptor, whose option method pointer is null (Cabsl.h:1228-1234); for
the name `"none"`, `OptionInfos::execute` (Cabsl.h:1273-1285) finds that
descriptor instead of taking the unknown-name branch, and proceeds into
the call through the null member-function pointer (undefined behavior,
the model's `none`) — the silent-no-op guarantee for unknown names does
not cover `"none"`.  (The descriptor's context offset `0` is not
representable in the name-keyed model; the undefined execution is
collapsed into the `none` result.) -/
theorem cabsl_none_descriptor_null_call (P : Program) (gas : Nat) (fs : Bool) (S : Cabsl) :
    registryLookup P "none" = some none ∧
    OptionInfos_execute P gas "none" fs S = none ∧
    OptionInfos_execute P gas "none" fs S ≠ some (false, S) := by
  refine ⟨by simp [registryLookup], ?_, ?_⟩ <;> simp [OptionInfos_execute, registryLookup]

/-! ## Definition loading: helper lemmas -/

/-- A definition init handler changes at most the `defs` storage of its
own option's context and no engine state. -/
theorem initHandler_defsOnly (files : FileSys) (od : OptionDef) (S : Cabsl) {S' : Cabsl}
    (h : initHandler files od S = .ok S') : DefsOnlyDiff S S' := by
  have hrefl : DefsOnlyDiff S S := ⟨fun n => rfl, rfl, rfl, rfl, rfl, rfl, rfl⟩
  have hmod : DefsOnlyDiff S (modifyCtx S od.name fun c => { c with defs := some () }) := by
    refine ⟨fun n => ?_, rfl, rfl, rfl, rfl, rfl, rfl⟩
    by_cases hn : n = od.name
    · subst hn; simp [modifyCtx_ctxs_self]
    · simp [modifyCtx_ctxs_ne _ _ _ _ hn]
  rcases hk : od.defsKind with _ | _ | fields
  · simp [initHandler, hk] at h
    exact h ▸ hrefl
  · by_cases hd : (S.ctxs od.name).defs = none
    · simp [initHandler, hk, hd] at h
      exact h ▸ hmod
    · simp [initHandler, hk, hd] at h
      exact h ▸ hrefl
  · by_cases hd : (S.ctxs od.name).defs = none
    · cases hf : files od.name with
      | none => simp [initHandler, hk, hd, hf] at h
      | some lines =>
        cases hr : readDefs fields lines with
        | ok u => simp [initHandler, hk, hd, hf, hr] at h
                  exact h ▸ hmod
        | error e => simp [initHandler, hk, hd, hf, hr] at h
    · simp [initHandler, hk, hd] at h
      exact h ▸ hrefl

/-- A definition init handler does not change the context of any other
option. -/
theorem initHandler_ctxs_ne (files : FileSys) (od : OptionDef) (S : Cabsl) {S' : Cabsl}
    (h : initHandler files od S = .ok S') (m : String) (hm : m ≠ od.name) :
    S'.ctxs m = S.ctxs m := by
  obtain ⟨hc, _⟩ := initHandler_defsOnly files od S h
  have h2 := initHandler_defsOnly files od S h
  -- from DefsOnlyDiff, derive the context of `m`; its defs component may
  -- only change for `od.name` itself
  rcases hk : od.defsKind with _ | _ | fields
  · simp [initHandler, hk] at h
    rw [← h]
  · by_cases hd : (S.ctxs od.name).defs = none
    · simp [initHandler, hk, hd] at h
      rw [← h]; exact modifyCtx_ctxs_ne _ _ _ _ hm
    · simp [initHandler, hk, hd] at h
      rw [← h]
  · by_cases hd : (S.ctxs od.name).defs = none
    · cases hf : files od.name with
      | none => simp [initHandler, hk, hd, hf] at h
      | some lines =>
        cases hr : readDefs fields lines with
        | ok u =>
          simp [initHandler, hk, hd, hf, hr] at h
          rw [← h]; exact modifyCtx_ctxs_ne _ _ _ _ hm
        | error e => simp [initHandler, hk, hd, hf, hr] at h
    · simp [initHandler, hk, hd] at h
      rw [← h]

/-- Running all init handlers changes at most `defs` storages. -/
theorem executeInitHandlers_defsOnly (files : FileSys) :
    ∀ (l : List OptionDef) (S : Cabsl) {S' : Cabsl},
      executeInitHandlers files l S = .ok S' → DefsOnlyDiff S S' := by
  intro l
  induction l with
  | nil =>
    intro S S' h
    simp [executeInitHandlers] at h
    exact h ▸ ⟨fun n => rfl, rfl, rfl, rfl, rfl, rfl, rfl⟩
  | cons od rest ih =>
    intro S S' h
    cases h0 : initHandler files od S with
    | error e => simp [executeInitHandlers, h0] at h
    | ok S₁ =>
      simp only [executeInitHandlers, h0] at h
      obtain ⟨hc1, he1⟩ := initHandler_defsOnly files od S h0
      obtain ⟨hc2, he2⟩ := ih S₁ h
      refine ⟨fun n => ?_, ?_⟩
      · rw [hc2 n, hc1 n]
      · obtain ⟨e1a, e1b, e1c, e1d, e1e, e1f⟩ := he1
        obtain ⟨e2a, e2b, e2c, e2d, e2e, e2f⟩ := he2
        exact ⟨e2a.trans e1a, e2b.trans e1b, e2c.trans e1c, e2d.trans e1d,
          e2e.trans e1e, e2f.trans e1f⟩

/-- If the definitions of some registered `load` option cannot be loaded
(missing file, or a name mismatch while reading), running the init
handlers fails. -/
theorem executeInitHandlers_fails (files : FileSys) :
    ∀ (l : List OptionDef) (S : Cabsl) (od : OptionDef) (fields : List String),
      od ∈ l → (∀ od' ∈ l, od'.name = od.name → od' = od) →
      od.defsKind = .load fields →
      (S.ctxs od.name).defs = none →
      loadFails files od.name fields →
      ∃ e, executeInitHandlers files l S = .error e := by
  intro l
  induction l with
  | nil => intro S od fields hmem; cases hmem
  | cons od₀ rest ih =>
    intro S od fields hmem hname hload hdefs hfail
    by_cases heq : od₀ = od
    · subst heq
      have hfirst : ∃ e, initHandler files od₀ S = .error e := by
        unfold loadFails at hfail
        cases hf : files od₀.name with
        | none =>
          exact ⟨.missingFile od₀.name, by simp [initHandler, hload, hdefs, hf]⟩
        | some lines =>
          simp only [hf] at hfail
          cases hr : readDefs fields lines with
          | ok u => simp only [hr] at hfail
          | error e => exact ⟨e, by simp [initHandler, hload, hdefs, hf, hr]⟩
      obtain ⟨e, he⟩ := hfirst
      exact ⟨e, by simp [executeInitHandlers, he]⟩
    · have hmem' : od ∈ rest := by
        cases hmem with
        | head => exact absurd rfl heq
        | tail _ h => exact h
      cases h0 : initHandler files od₀ S with
      | error e => exact ⟨e, by simp [executeInitHandlers, h0]⟩
      | ok S₁ =>
        have hne : od.name ≠ od₀.name := by
          intro hn
          exact heq (hname od₀ (List.mem_cons_self _ _) hn.symm)
        have hdefs₁ : (S₁.ctxs od.name).defs = none := by
          rw [initHandler_ctxs_ne files od₀ S h0 od.name hne]; exact hdefs
        obtain ⟨e, he⟩ := ih S₁ od fields hmem'
          (fun od' h' hn => hname od' (List.mem_cons_of_mem _ h') hn) hload hdefs₁ hfail
        exact ⟨e, by simp [executeInitHandlers, h0, he]⟩

/-- **C7 counterexample**: the claim as stated is false.  With option `L`
declared with file-loaded constants and `L.cfg` missing, the very first
`begin_frame` of the behavior instance throws — although `L` has never
been activated (no `execute` has happened at all), contradicting "a
missing configuration file ... causes a fatal failure on the first
activation of that affected option; until then execution is
unaffected".  The second conjunct shows the same for a malformed/unknown
name in the file. -/
theorem cabsl_defs_load_counterexample :
    beginFrame loadProgram noFiles 1 (initialCabsl false) =
      .error (.missingFile "L") ∧
    beginFrame loadProgram badFiles 1 (initialCabsl false) =
      .error (.badName "a") :=
  ⟨rfl, rfl⟩

/-- **C7 amended**: a missing configuration file or a malformed/unknown
name in the file of an option declared with file-loaded constants causes
a fatal failure (an exception escaping `begin_frame`) at the *first*
`begin_frame` of the behavior instance — when all registered definition
initializers run — regardless of whether the affected option is ever
activated; after a successful first frame, `begin_frame` never runs the
initializers again (second conjunct), so no such failure can occur
later. -/
theorem cabsl_defs_load_first_begin_frame (P : Program) (files : FileSys) (t : Nat)
    (S : Cabsl) :
    (∀ od fields, S.definitionsInitialized = false →
      od ∈ P → (∀ od' ∈ P, od'.name = od.name → od' = od) →
      od.defsKind = .load fields →
      (S.ctxs od.name).defs = none →
      loadFails files od.name fields →
      ∃ e, beginFrame P files t S = .error e) ∧
    (S.definitionsInitialized = true →
      beginFrame P files t S =
        .ok { S with currentFrameTime := t,
                     activationGraph := S.activationGraph.map fun _ => [] }) := by
  constructor
  · intro od fields hinit hmem hname hload hdefs hfail
    obtain ⟨e, he⟩ := executeInitHandlers_fails files P
      { S with currentFrameTime := t, activationGraph := S.activationGraph.map fun _ => [] }
      od fields hmem hname hload hdefs hfail
    rw [hinit] at he
    exact ⟨e, by simp [beginFrame, hinit, he]⟩
  · intro hinit
    simp [beginFrame, hinit]

/-- Witness for `cabsl_defs_load_first_begin_frame`: the `loadProgram`
behavior with no files fails its first `begin_frame`, and a
definitions-initialized instance's `begin_frame` only stamps the time and
clears the graph. -/
theorem cabsl_defs_load_first_begin_frame_witness :
    (∃ e, beginFrame loadProgram noFiles 1 (initialCabsl false) = .error e) ∧
    beginFrame loadProgram noFiles 2 (frame1 false) =
      .ok { (frame1 false) with
            currentFrameTime := 2
            activationGraph := (frame1 false).activationGraph.map fun _ => [] } := by
  constructor
  · have huniq : ∀ od' ∈ loadProgram, od'.name = loadOption.name → od' = loadOption := by
      intro od' hmem hn
      rcases List.mem_cons.mp hmem with h | hmem
      · exact h
      · rcases List.mem_cons.mp hmem with h | h
        · rw [h] at hn
          simp [plainRootOption, loadOption] at hn
        · cases h
    exact (cabsl_defs_load_first_begin_frame loadProgram noFiles 1 (initialCabsl false)).1
      loadOption ["a"] rfl (List.mem_cons_self _ _) huniq
      rfl rfl (by unfold loadFails; simp [noFiles])
  · exact (cabsl_defs_load_first_begin_frame loadProgram noFiles 2 (frame1 false)).2 rfl

/-- **C8 counterexample**: the claim as stated is false.  On a fresh
behavior instance with an option declaring constant definitions,
`begin_frame(5); end_frame()` with no `execute` in between allocates the
option's `defs` storage (the OptionContext changes), and flips
`definitions_initialized` and `current_cycle` — engine state beyond
`previous_cycle`. -/
theorem cabsl_frame_roundtrip_counterexample :
    (beginFrame defsProgram noFiles 5 (initialCabsl false)).map
        (fun S => (((endFrame S).ctxs "D").defs, (endFrame S).definitionsInitialized,
          (endFrame S).currentFrameTime, (endFrame S).lastFrameTime)) =
      .ok (some (), true, 5, 5) ∧
    (((initialCabsl false).ctxs "D").defs, (initialCabsl false).definitionsInitialized,
      (initialCabsl false).currentFrameTime) = (none, false, 0) :=
  ⟨rfl, rfl⟩

/-- **C8 amended**: `begin_frame(C); end_frame()` with no `execute` in
between leaves the activation graph empty (cleared) and, once the
instance's definitions have been initialized (every frame after the
first), leaves every OptionContext unchanged; the engine state that
changes is `current_cycle` and `previous_cycle`, both set to `C`.  On the
instance's first frame, additionally the definition initializers run:
they change at most the `defs` storages of the option contexts and set
`definitions_initialized` (second conjunct). -/
theorem cabsl_frame_roundtrip (P : Program) (files : FileSys) (C : Nat) (S : Cabsl) :
    (S.definitionsInitialized = true →
      (beginFrame P files C S).map endFrame =
        .ok { S with currentFrameTime := C, lastFrameTime := C,
                     activationGraph := S.activationGraph.map fun _ => [] }) ∧
    (∀ S', executeInitHandlers files P S = .ok S' → DefsOnlyDiff S S') := by
  constructor
  · intro hinit
    simp [beginFrame, hinit, endFrame, Except.map]
  · intro S' h
    exact executeInitHandlers_defsOnly files P S h

/-- Witness for `cabsl_frame_roundtrip`: a non-first frame of the
`defsProgram` behavior, and its first-frame initializer run. -/
theorem cabsl_frame_roundtrip_witness :
    (beginFrame defsProgram noFiles 7 (frame1 false)).map endFrame =
      .ok { (frame1 false) with
            currentFrameTime := 7
            lastFrameTime := 7
            activationGraph := (frame1 false).activationGraph.map fun _ => [] } ∧
    ∃ S', executeInitHandlers noFiles defsProgram (initialCabsl false) = .ok S' ∧
      DefsOnlyDiff (initialCabsl false) S' := by
  constructor
  · exact (cabsl_frame_roundtrip defsProgram noFiles 7 (frame1 false)).1 rfl
  · obtain ⟨S', hS'⟩ :
        ∃ S', executeInitHandlers noFiles defsProgram (initialCabsl false) = .ok S' :=
      ⟨_, rfl⟩
    exact ⟨S', hS',
      (cabsl_frame_roundtrip defsProgram noFiles 7 (initialCabsl false)).2 S' hS'⟩

/-! ## Time bookkeeping: the clock invariant -/

theorem AllTimeInv_of_fields (S S' : Cabsl) (hinv : AllTimeInv S)
    (htime : S'.currentFrameTime = S.currentFrameTime)
    (hc : ∀ n, ((S'.ctxs n).optionStart = (S.ctxs n).optionStart ∧
        (S'.ctxs n).stateStart = (S.ctxs n).stateStart) ∨
        TimeInv (S'.ctxs n) S'.currentFrameTime) :
    AllTimeInv S' := by
  intro n
  rcases hc n with ⟨ho, hs⟩ | hdone
  · exact ⟨ho ▸ hs ▸ (hinv n).1, htime ▸ (hs ▸ (hinv n).2)⟩
  · exact hdone

theorem AllTimeInv_setCtx (S : Cabsl) (n : String) (c : OptionContext)
    (hinv : AllTimeInv S) (hc : TimeInv c S.currentFrameTime) :
    AllTimeInv (setCtx S n c) := by
  intro m
  by_cases hm : m = n
  · subst hm; rw [setCtx_ctxs_self]; exact hc
  · rw [setCtx_ctxs_ne _ _ _ _ hm]; exact hinv m

theorem AllTimeInv_scopeEnter (n : String) (S : Cabsl) (hinv : AllTimeInv S) :
    AllTimeInv (scopeEnter n S) := by
  refine AllTimeInv_of_fields S _ hinv rfl fun m => ?_
  by_cases hm : m = n
  · subst hm
    right
    rw [scopeEnter_currentFrameTime]
    simp only [scopeEnter, setCtx_ctxs_self]
    split
    · split <;> exact ⟨le_refl _, le_refl _⟩
    · split <;> exact (hinv m)
  · left; rw [scopeEnter_ctxs_ne _ _ _ hm]; exact ⟨rfl, rfl⟩

theorem TimeInv_updateState (c : OptionContext) (now : Nat) (ns : Int) (t : StateType)
    (h : TimeInv c now) : TimeInv (updateState c now ns t) now := by
  simp only [updateState]
  split
  · exact ⟨le_trans h.1 h.2, le_refl _⟩
  · exact h

theorem AllTimeInv_addToActivationGraph (S : Cabsl) (n : String) (hinv : AllTimeInv S) :
    AllTimeInv (addToActivationGraph S n) := by
  refine AllTimeInv_of_fields S _ hinv (addToActivationGraph_currentFrameTime S n)
    fun m => ?_
  by_cases hm : m = n
  · subst hm
    rcases addToActivationGraph_ctxs_self S m with h | h <;> rw [h] <;> exact Or.inl ⟨rfl, rfl⟩
  · left; rw [addToActivationGraph_ctxs_ne S n m hm]; exact ⟨rfl, rfl⟩

theorem scopeExit_currentFrameTime (n : String) (fs : Bool) (S : Cabsl) :
    (scopeExit n fs S).currentFrameTime = S.currentFrameTime := by
  unfold scopeExit
  split
  · rcases addToActivationGraph_ctxs_self S n with h | h <;>
      simp [modifyCtx, setCtx, addToActivationGraph_currentFrameTime]
  · simp [modifyCtx, setCtx]

theorem scopeExit_ctxs_clocks (n : String) (fs : Bool) (S : Cabsl) :
    ((scopeExit n fs S).ctxs n).optionStart = (S.ctxs n).optionStart ∧
    ((scopeExit n fs S).ctxs n).stateStart = (S.ctxs n).stateStart := by
  unfold scopeExit
  split
  · rcases addToActivationGraph_ctxs_self S n with h | h <;>
      simp [modifyCtx, setCtx, h]
  · simp [modifyCtx, setCtx]

theorem scopeExit_ctxs_ne (n m : String) (fs : Bool) (S : Cabsl) (hm : m ≠ n) :
    (scopeExit n fs S).ctxs m = S.ctxs m := by
  unfold scopeExit
  split
  · simp [modifyCtx, setCtx, hm, addToActivationGraph_ctxs_ne S n m hm]
  · simp [modifyCtx, setCtx, hm]

theorem AllTimeInv_scopeExit (n : String) (fs : Bool) (S : Cabsl) (hinv : AllTimeInv S) :
    AllTimeInv (scopeExit n fs S) := by
  refine AllTimeInv_of_fields S _ hinv (scopeExit_currentFrameTime n fs S) fun m => ?_
  by_cases hm : m = n
  · subst hm; exact Or.inl (scopeExit_ctxs_clocks m fs S)
  · left; rw [scopeExit_ctxs_ne n m fs S hm]; exact ⟨rfl, rfl⟩

/-- Every completed engine run preserves the clock invariant of every
option context. -/
theorem run_preserves_AllTimeInv (P : Program) :
    ∀ (gas : Nat) (job : Job) (S : Cabsl) (b : Bool) (S' : Cabsl),
      AllTimeInv S → run P gas job S = some (b, S') → AllTimeInv S' := by
  intro gas
  induction gas with
  | zero => intro job S b S' _ h; simp [run] at h
  | succ g ih =>
    intro job S b S' hinv h
    cases job with
    | invoke od fs =>
      simp only [run] at h
      rw [Option.map_eq_some'] at h
      obtain ⟨p, hbody, heq⟩ := h
      have hinv1 : AllTimeInv (scopeEnter od.name S) := AllTimeInv_scopeEnter _ _ hinv
      have hinv2 : AllTimeInv (modifyCtx (scopeEnter od.name S) od.name fun c =>
          { c with hasCommonTransition := true }) := by
        refine AllTimeInv_of_fields _ _ hinv1 rfl fun m => ?_
        by_cases hm : m = od.name
        · subst hm; left; rw [modifyCtx_ctxs_self]; exact ⟨rfl, rfl⟩
        · left; rw [modifyCtx_ctxs_ne _ _ _ _ hm]; exact ⟨rfl, rfl⟩
      have hinvp : AllTimeInv p.2 := by
        split at hbody
        · split at hbody
          · exact ih _ _ _ _ hinv2 hbody
          · exact ih _ _ _ _ hinv2 hbody
        · exact ih _ _ _ _ hinv1 hbody
      have : S' = scopeExit od.name fs p.2 := by
        have := congrArg Prod.snd heq
        simpa using this.symm
      rw [this]
      exact AllTimeInv_scopeExit _ _ _ hinvp
    | states o body sts =>
      cases sts with
      | nil =>
        simp only [run, Option.some.injEq, Prod.mk.injEq] at h
        rw [← h.2]; exact hinv
      | cons st rest =>
        simp only [run] at h
        have hinv1 : AllTimeInv (modifyCtx S o fun c =>
            { c with hasCommonTransition := false }) := by
          refine AllTimeInv_of_fields _ _ hinv rfl fun m => ?_
          by_cases hm : m = o
          · subst hm; left; rw [modifyCtx_ctxs_self]; exact ⟨rfl, rfl⟩
          · left; rw [modifyCtx_ctxs_ne _ _ _ _ hm]; exact ⟨rfl, rfl⟩
        split at h
        · -- state matched
          set S1 := modifyCtx S o fun c => { c with hasCommonTransition := false } with hS1
          have hinv2 : AllTimeInv (modifyCtx S1 o fun c => { c with stateName := st.name }) := by
            refine AllTimeInv_of_fields _ _ hinv1 rfl fun m => ?_
            by_cases hm : m = o
            · subst hm; left; rw [modifyCtx_ctxs_self]; exact ⟨rfl, rfl⟩
            · left; rw [modifyCtx_ctxs_ne _ _ _ _ hm]; exact ⟨rfl, rfl⟩
          set S2 := modifyCtx S1 o fun c => { c with stateName := st.name } with hS2
          have hinv3 : ∀ X : Cabsl, AllTimeInv X → AllTimeInv
              (modifyCtx X o fun c => { c with transitionExecuted := !c.transitionExecuted }) := by
            intro X hX
            refine AllTimeInv_of_fields _ _ hX rfl fun m => ?_
            by_cases hm : m = o
            · subst hm; left; rw [modifyCtx_ctxs_self]; exact ⟨rfl, rfl⟩
            · left; rw [modifyCtx_ctxs_ne _ _ _ _ hm]; exact ⟨rfl, rfl⟩
          have hinvS3 : AllTimeInv (match st.trans with
              | some _ => modifyCtx S2 o fun c =>
                  { c with transitionExecuted := !c.transitionExecuted }
              | none => S2) := by
            rcases st.trans with _ | d
            · exact hinv2
            · exact hinv3 _ hinv2
          split at h
          · exact ih _ _ _ _ hinvS3 h
          · split at h
            · rw [Option.bind_eq_some] at h
              obtain ⟨p, hsteps, hrest⟩ := h
              have hinv5 : AllTimeInv (addToActivationGraph
                  (match st.trans with
                    | some _ => modifyCtx S2 o fun c =>
                        { c with transitionExecuted := !c.transitionExecuted }
                    | none => S2) o) :=
                AllTimeInv_addToActivationGraph _ _ hinvS3
              have hinvp : AllTimeInv p.2 := ih _ _ _ _ hinv5 hsteps
              exact ih _ _ _ _ hinvp hrest
            · exact ih _ _ _ _ hinvS3 h
        · exact ih _ _ _ _ hinv1 h
    | goto o body target =>
      rcases hd : body.states.dropWhile (fun st => st.name != target) with _ | ⟨st, rest⟩ <;>
        simp only [run, hd] at h
      · simp only [Option.some.injEq, Prod.mk.injEq] at h
        rw [← h.2]; exact hinv
      · have hinv1 : AllTimeInv (modifyCtx S o fun c =>
            updateState c S.currentFrameTime st.line st.type) := by
          refine AllTimeInv_of_fields _ _ hinv rfl fun m => ?_
          by_cases hm : m = o
          · subst hm
            right
            rw [modifyCtx_currentFrameTime, modifyCtx_ctxs_self]
            exact TimeInv_updateState _ _ _ _ (hinv m)
          · left; rw [modifyCtx_ctxs_ne _ _ _ _ hm]; exact ⟨rfl, rfl⟩
        exact ih _ _ _ _ hinv1 h
    | steps l =>
      cases l with
      | nil =>
        simp only [run, Option.some.injEq, Prod.mk.injEq] at h
        rw [← h.2]; exact hinv
      | cons step rest =>
        cases step with
        | callOption nm =>
          simp only [run] at h
          rcases hf : P.find? (fun od => od.name == nm) with _ | od <;> rw [hf] at h
          · exact ih _ _ _ _ hinv h
          · rw [Option.bind_eq_some] at h
            obtain ⟨p, hcall, hrest⟩ := h
            exact ih _ _ _ _ (ih _ _ _ _ hinv hcall) hrest
        | selectOption names =>
          simp only [run] at h
          rw [Option.bind_eq_some] at h
          obtain ⟨p, hsel, hrest⟩ := h
          exact ih _ _ _ _ (ih _ _ _ _ hinv hsel) hrest
    | select names =>
      cases names with
      | nil =>
        simp only [run, Option.some.injEq, Prod.mk.injEq] at h
        rw [← h.2]; exact hinv
      | cons n rest =>
        simp only [run] at h
        rcases hl : registryLookup P n with _ | od <;> rw [hl] at h
        · exact ih _ _ _ _ hinv h
        · rcases od with _ | od
          · simp at h
          · rw [Option.bind_eq_some] at h
            obtain ⟨p, hcall, hrest⟩ := h
            have hinvp : AllTimeInv p.2 := ih _ _ _ _ hinv hcall
            split at hrest
            · simp only [Option.some.injEq, Prod.mk.injEq] at hrest
              rw [← hrest.2]; exact hinvp
            · exact ih _ _ _ _ hinvp hrest

theorem beginFrame_preserves_AllTimeInv (P : Program) (files : FileSys) (t : Nat)
    (S : Cabsl) {S' : Cabsl} (hinv : AllTimeInv S) (hmono : S.currentFrameTime ≤ t)
    (h : beginFrame P files t S = .ok S') : AllTimeInv S' := by
  have hinv0 : AllTimeInv
      { S with currentFrameTime := t, activationGraph := S.activationGraph.map fun _ => [] } :=
    fun n => ⟨(hinv n).1, le_trans (hinv n).2 hmono⟩
  by_cases hd : S.definitionsInitialized
  · simp [beginFrame, hd] at h
    rw [← h]; exact hinv0
  · have hd2 : S.definitionsInitialized = false := by simpa using hd
    have hinv0b : AllTimeInv
        { S with activationGraph := S.activationGraph.map fun _ => [],
                 definitionsInitialized := false, currentFrameTime := t } :=
      fun n => ⟨(hinv n).1, le_trans (hinv n).2 hmono⟩
    cases he : executeInitHandlers files P
        { S with activationGraph := S.activationGraph.map fun _ => [],
                 definitionsInitialized := false, currentFrameTime := t } with
    | error e => simp [beginFrame, hd2, he] at h
    | ok S₁ =>
      simp [beginFrame, hd2, he] at h
      obtain ⟨hc, _, _, _, _, _, htime⟩ := executeInitHandlers_defsOnly files P _ he
      have hinv1 : AllTimeInv S₁ := by
        refine AllTimeInv_of_fields _ _ hinv0b htime fun m => ?_
        left; rw [hc m]; exact ⟨rfl, rfl⟩
      rw [← h]
      exact fun n => hinv1 n

theorem endFrame_preserves_AllTimeInv (S : Cabsl) (hinv : AllTimeInv S) :
    AllTimeInv (endFrame S) := fun n => hinv n

/-- **C6**: the clock bookkeeping invariant.  (1) The re-entry reset sets
both `option_start_cycle` and `state_start_cycle` to the current cycle;
(2) `updateState` advances only `state_start_cycle`, and only on a real
state change; (3) every completed engine run and (4) every frame
transition with non-decreasing stamps preserve
`state_start_cycle ≥ option_start_cycle` (together with both clocks not
lying in the future) for every option context; (5) consequently
`state_start_cycle ≥ option_start_cycle` gives `state_time ≤ option_time`
whenever the symbols are evaluated. -/
theorem cabsl_state_time_le_option_time (P : Program) (files : FileSys) :
    (∀ (S : Cabsl) (n : String),
      (S.ctxs n).lastFrame ≠ S.lastFrameTime → (S.ctxs n).lastFrame ≠ S.currentFrameTime →
      ((scopeEnter n S).ctxs n).optionStart = S.currentFrameTime ∧
      ((scopeEnter n S).ctxs n).stateStart = S.currentFrameTime) ∧
    (∀ (c : OptionContext) (now : Nat) (ns : Int) (t : StateType),
      (c.state ≠ ns →
        (updateState c now ns t).stateStart = now ∧
        (updateState c now ns t).optionStart = c.optionStart) ∧
      (c.state = ns → updateState c now ns t = { c with transitionExecuted := true })) ∧
    (∀ (gas : Nat) (job : Job) (S : Cabsl) (b : Bool) (S' : Cabsl),
      AllTimeInv S → run P gas job S = some (b, S') → AllTimeInv S') ∧
    (∀ (t : Nat) (S : Cabsl) (S' : Cabsl), AllTimeInv S → S.currentFrameTime ≤ t →
      beginFrame P files t S = .ok S' → AllTimeInv (endFrame S')) ∧
    (∀ (c : OptionContext) (now : Nat), TimeInv c now →
      c.optionStart ≤ c.stateStart ∧ state_time c now ≤ option_time c now) := by
  refine ⟨?_, ?_, run_preserves_AllTimeInv P, ?_, ?_⟩
  · intro S n h1 h2
    simp only [scopeEnter, setCtx]
    by_cases hsel : (S.ctxs n).lastSelectFrame ≠ S.lastFrameTime ∧
        (S.ctxs n).lastSelectFrame ≠ S.currentFrameTime <;>
      simp [h1, h2, hsel]
  · intro c now ns t
    constructor
    · intro hne
      simp only [updateState]
      rw [if_pos]
      · exact ⟨rfl, rfl⟩
      · exact hne
    · intro heq
      simp only [updateState]
      rw [if_neg]
      simp [heq]
  · intro t S S' hinv hmono h
    exact endFrame_preserves_AllTimeInv S'
      (beginFrame_preserves_AllTimeInv P files t S hinv hmono h)
  · intro c now h
    refine ⟨h.1, ?_⟩
    unfold state_time option_time
    exact sub_le_sub_left (Nat.cast_le.mpr h.1) _

/-- Witness for `cabsl_state_time_le_option_time`: each part applied at
concrete inputs — the fresh context reset, a real and a self transition,
the common-transition scenario run, one frame pair, and the default
context's clocks. -/
theorem cabsl_state_time_le_option_time_witness :
    (((scopeEnter "X" (initialCabsl false)).ctxs "X").optionStart =
        (initialCabsl false).currentFrameTime ∧
      ((scopeEnter "X" (initialCabsl false)).ctxs "X").stateStart =
        (initialCabsl false).currentFrameTime) ∧
    ((updateState {} 3 5 .normalState).stateStart = 3 ∧
      (updateState {} 3 5 .normalState).optionStart = ({} : OptionContext).optionStart) ∧
    (updateState {} 3 0 .normalState = { ({} : OptionContext) with transitionExecuted := true }) ∧
    (∃ b S', run commonWinsProgram 20 (.invoke commonWinsOption false) commonWinsState =
        some (b, S') ∧ AllTimeInv S') ∧
    (∃ S', beginFrame defsProgram noFiles 1 (initialCabsl false) = .ok S' ∧
      AllTimeInv (endFrame S')) ∧
    (({} : OptionContext).optionStart ≤ ({} : OptionContext).stateStart ∧
      state_time {} 1 ≤ option_time {} 1) := by
  have hmain := cabsl_state_time_le_option_time commonWinsProgram noFiles
  obtain ⟨h1, h2, h3, h4, h5⟩ := hmain
  have hmain2 := cabsl_state_time_le_option_time defsProgram noFiles
  refine ⟨h1 (initialCabsl false) "X" (by decide) (by decide), ?_, ?_, ?_, ?_, ?_⟩
  · exact (h2 {} 3 5 .normalState).1 (by decide)
  · exact (h2 {} 3 0 .normalState).2 rfl
  · have hinvS : AllTimeInv commonWinsState := by
      intro n
      by_cases hn : n = "R" <;> simp [commonWinsState, TimeInv, hn]
    obtain ⟨b, S', hrun⟩ :
        ∃ b S', run commonWinsProgram 20 (.invoke commonWinsOption false) commonWinsState =
          some (b, S') := ⟨_, _, rfl⟩
    exact ⟨b, S', hrun, h3 20 _ commonWinsState b S' hinvS hrun⟩
  · obtain ⟨S', hbf⟩ :
        ∃ S', beginFrame defsProgram noFiles 1 (initialCabsl false) = .ok S' := ⟨_, rfl⟩
    have hinvS : AllTimeInv (initialCabsl false) := by
      intro n; exact ⟨Nat.le_refl 0, Nat.le_refl 0⟩
    exact ⟨S', hbf, hmain2.2.2.2.1 1 (initialCabsl false) S' hinvS (Nat.zero_le 1) hbf⟩
  · exact h5 {} 1 ⟨Nat.le_refl 0, Nat.zero_le 1⟩

/-! ## Characterizing the fall-through over the state macros -/

theorem modifyCtx_idem (S : Cabsl) (o : String) (f : OptionContext → OptionContext)
    (hf : ∀ c, f (f c) = f c) :
    modifyCtx (modifyCtx S o f) o f = modifyCtx S o f := by
  unfold modifyCtx
  rw [setCtx_ctxs_self, setCtx_setCtx, hf]

/-- Fall-through over states none of which matches the current state id:
the only effect is the `hasCommonTransition = false` of the `_state`
macros (when at least one state is passed). -/
theorem run_states_no_match (P : Program) (o : String) (body : OptionDef) :
    ∀ (sts : List StateDecl) (gas : Nat) (S : Cabsl),
      (∀ st ∈ sts, (S.ctxs o).state ≠ st.line) →
      sts.length < gas →
      run P gas (.states o body sts) S =
        some (false, if sts.isEmpty then S
          else modifyCtx S o fun c => { c with hasCommonTransition := false }) := by
  intro sts
  induction sts with
  | nil =>
    intro gas S _ hgas
    cases gas with
    | zero => exact absurd hgas (Nat.not_lt_zero _)
    | succ g => simp [run]
  | cons st rest ih =>
    intro gas S hnm hgas
    cases gas with
    | zero => exact absurd hgas (Nat.not_lt_zero _)
    | succ g =>
      have hne : (S.ctxs o).state ≠ st.line := hnm st (List.mem_cons_self _ _)
      have hrest : ∀ st' ∈ rest,
          ((modifyCtx S o fun c => { c with hasCommonTransition := false }).ctxs o).state ≠
            st'.line := by
        intro st' hm
        rw [modifyCtx_ctxs_self]
        exact hnm st' (List.mem_cons_of_mem _ hm)
      have hgas' : rest.length < g := by
        simpa [Nat.succ_lt_succ_iff] using hgas
      simp only [run, modifyCtx_ctxs_self]
      rw [if_neg hne]
      rw [ih g _ hrest hgas']
      cases rest with
      | nil => simp
      | cons st2 rest2 =>
        simp only [List.isEmpty_cons, if_neg]
        rw [modifyCtx_idem]
        · simp
        · intro c; rfl

/-- The `_state` macro of the matched state when the transition latch is
already set (from this cycle's `goto` through `updateState`): the
`transition` macro's `transitionExecuted ^= true` turns the latch off, so
the state's own decision tree does NOT run; control goes straight to the
`action` block and the fall-through over the remaining states. -/
theorem run_states_latch_on (P : Program) (o : String) (body : OptionDef)
    (st : StateDecl) (rest : List StateDecl) (gas : Nat) (S : Cabsl)
    (hmatch : (S.ctxs o).state = st.line)
    (hlatch : (S.ctxs o).transitionExecuted = true)
    (d : OptionContext → Nat → Option String)
    (htr : st.trans = some d) :
    run P (gas + 1) (.states o body (st :: rest)) S =
      (match st.action with
       | some steps =>
         (run P gas (.steps steps)
           (addToActivationGraph
             (modifyCtx S o fun c =>
               { c with hasCommonTransition := false, stateName := st.name
                        transitionExecuted := false }) o)).bind fun p =>
           run P gas (.states o body rest) p.2
       | none =>
         run P gas (.states o body rest)
           (modifyCtx S o fun c =>
             { c with hasCommonTransition := false, stateName := st.name
                      transitionExecuted := false })) := by
  simp only [run, modifyCtx_ctxs_self, htr]
  rw [if_pos (by simpa using hmatch)]
  simp only [modifyCtx, setCtx_ctxs_self, setCtx_setCtx, hlatch]
  simp

/-- The `_state` macro of the matched state when the state has no
`transition` block: the latch is untouched and control goes to the
`action` block and the fall-through. -/
theorem run_states_match_no_trans (P : Program) (o : String) (body : OptionDef)
    (st : StateDecl) (rest : List StateDecl) (gas : Nat) (S : Cabsl)
    (hmatch : (S.ctxs o).state = st.line)
    (htr : st.trans = none) :
    run P (gas + 1) (.states o body (st :: rest)) S =
      (match st.action with
       | some steps =>
         (run P gas (.steps steps)
           (addToActivationGraph
             (modifyCtx S o fun c =>
               { c with hasCommonTransition := false, stateName := st.name }) o)).bind fun p =>
           run P gas (.states o body rest) p.2
       | none =>
         run P gas (.states o body rest)
           (modifyCtx S o fun c =>
             { c with hasCommonTransition := false, stateName := st.name })) := by
  simp only [run, modifyCtx_ctxs_self, htr]
  rw [if_pos (by simpa using hmatch)]
  simp only [modifyCtx, setCtx_ctxs_self, setCtx_setCtx]

/-- A completed fall-through over non-matching states used more fuel
than the number of states passed. -/
theorem run_states_no_match_some (P : Program) (o : String) (body : OptionDef) :
    ∀ (sts : List StateDecl) (gas : Nat) (S : Cabsl) (b : Bool) (S' : Cabsl),
      (∀ st ∈ sts, (S.ctxs o).state ≠ st.line) →
      run P gas (.states o body sts) S = some (b, S') →
      sts.length < gas := by
  intro sts
  induction sts with
  | nil =>
    intro gas S b S' _ h
    cases gas with
    | zero => simp [run] at h
    | succ g => exact Nat.succ_pos _
  | cons st rest ih =>
    intro gas S b S' hnm h
    cases gas with
    | zero => simp [run] at h
    | succ g =>
      have hne : (S.ctxs o).state ≠ st.line := hnm st (List.mem_cons_self _ _)
      simp only [run, modifyCtx_ctxs_self] at h
      rw [if_neg hne] at h
      have hrest : ∀ st' ∈ rest,
          ((modifyCtx S o fun c => { c with hasCommonTransition := false }).ctxs o).state ≠
            st'.line := by
        intro st' hm
        rw [modifyCtx_ctxs_self]
        exact hnm st' (List.mem_cons_of_mem _ hm)
      have := ih g _ b S' hrest h
      simpa [Nat.succ_lt_succ_iff] using this

/-- Combined characterization of a completed non-matching fall-through:
the boolean is `false` and the final state is the input with at most the
`hasCommonTransition` latch cleared. -/
theorem run_states_tail_end (P : Program) (o : String) (body : OptionDef)
    (rest : List StateDecl) (gas : Nat) (S : Cabsl) (b : Bool) (S' : Cabsl)
    (hnm : ∀ st ∈ rest, (S.ctxs o).state ≠ st.line)
    (hrun : run P gas (.states o body rest) S = some (b, S')) :
    rest.length < gas ∧ b = false ∧
      S' = (if rest.isEmpty then S
        else modifyCtx S o fun c => { c with hasCommonTransition := false }) := by
  have hlen := run_states_no_match_some P o body rest gas S b S' hnm hrun
  rw [run_states_no_match P o body rest gas S hnm hlen] at hrun
  simp only [Option.some.injEq, Prod.mk.injEq] at hrun
  exact ⟨hlen, hrun.1.symm, hrun.2.symm⟩

/-- `addToActivationGraph` never changes the recorded state id, kind or
transition latch of the option's context. -/
theorem addToActivationGraph_ctxs_fields (S : Cabsl) (n : String) :
    ((addToActivationGraph S n).ctxs n).state = (S.ctxs n).state ∧
    ((addToActivationGraph S n).ctxs n).stateType = (S.ctxs n).stateType ∧
    ((addToActivationGraph S n).ctxs n).transitionExecuted = (S.ctxs n).transitionExecuted := by
  rcases addToActivationGraph_ctxs_self S n with h | h <;> simp [h]


/-- One unfolding step of a `goto` whose target label exists: run
`updateState` and continue with the states from the target on. -/
theorem run_goto_unfold (P : Program) (o : String) (body : OptionDef) (tn : String)
    (t : StateDecl) (rest : List StateDecl) (gas : Nat) (S : Cabsl)
    (hdrop : body.states.dropWhile (fun st => st.name != tn) = t :: rest) :
    run P (gas + 1) (.goto o body tn) S =
      run P gas (.states o body (t :: rest))
        (modifyCtx S o fun c => updateState c S.currentFrameTime t.line t.type) := by
  simp only [run, hdrop]

/-- Characterization of a completed `goto` whose target state `t` differs
from the current state: `updateState` records `t`'s id and kind and sets
the transition latch, so `t`'s own `transition` block is skipped, its
`action` runs, and the fall-through over the remaining states matches
nothing; the recorded state id and kind survive to the end of the body,
and the body's run is insensitive to everything of the body except the
suffix of states starting at the target label (same head, equally many
trailing states with ids different from `t.line`). -/
theorem run_goto_changed (P : Program) (o : String) (tn : String)
    (t : StateDecl) (body : OptionDef) (rest : List StateDecl)
    (gas : Nat) (S : Cabsl) (b : Bool) (S' : Cabsl)
    (hdrop : body.states.dropWhile (fun st => st.name != tn) = t :: rest)
    (hchange : t.line ≠ (S.ctxs o).state)
    (hdist : ∀ st ∈ rest, st.line ≠ t.line)
    (hframe : ∀ steps, t.action = some steps → ∀ g S₁ b₁ S₂,
        run P g (.steps steps) S₁ = some (b₁, S₂) → S₂.ctxs o = S₁.ctxs o)
    (hrun : run P gas (.goto o body tn) S = some (b, S')) :
    (S'.ctxs o).state = t.line ∧ (S'.ctxs o).stateType = t.type ∧ b = false ∧
    ∀ (body' : OptionDef) (rest' : List StateDecl),
      body'.states.dropWhile (fun st => st.name != tn) = t :: rest' →
      (∀ st ∈ rest', st.line ≠ t.line) →
      rest'.length = rest.length →
      run P gas (.goto o body' tn) S = some (b, S') := by
  cases gas with
  | zero => simp [run] at hrun
  | succ g =>
    rw [run_goto_unfold P o body tn t rest g S hdrop] at hrun
    have hG1 : ((modifyCtx S o fun c =>
        updateState c S.currentFrameTime t.line t.type).ctxs o).state = t.line := by
      rw [modifyCtx_ctxs_self]
      simp [updateState, Ne.symm hchange]
    have hG2 : ((modifyCtx S o fun c =>
        updateState c S.currentFrameTime t.line t.type).ctxs o).stateType = t.type := by
      rw [modifyCtx_ctxs_self]
      simp [updateState, Ne.symm hchange]
    have hG3 : ((modifyCtx S o fun c =>
        updateState c S.currentFrameTime t.line t.type).ctxs o).transitionExecuted = true := by
      rw [modifyCtx_ctxs_self]
      simp [updateState, Ne.symm hchange]
    cases g with
    | zero => simp [run] at hrun
    | succ g2 =>
      cases htr : t.trans with
      | some d =>
        rw [run_states_latch_on P o body t rest g2 _ hG1 hG3 d htr] at hrun
        cases ha : t.action with
        | some steps =>
          simp only [ha] at hrun
          rw [Option.bind_eq_some] at hrun
          obtain ⟨⟨b₁, S₂⟩, hsteps, hrest⟩ := hrun
          have hrest' : run P g2 (.states o body rest) S₂ = some (b, S') := hrest
          have hS₂ := hframe steps ha g2 _ b₁ S₂ hsteps
          have hS₂state : (S₂.ctxs o).state = t.line := by
            rw [hS₂, (addToActivationGraph_ctxs_fields _ o).1, modifyCtx_ctxs_self]
            simpa using hG1
          have hS₂type : (S₂.ctxs o).stateType = t.type := by
            rw [hS₂, (addToActivationGraph_ctxs_fields _ o).2.1, modifyCtx_ctxs_self]
            simpa using hG2
          have hnm : ∀ st ∈ rest, (S₂.ctxs o).state ≠ st.line := by
            intro st hm
            rw [hS₂state]
            exact Ne.symm (hdist st hm)
          obtain ⟨hlen, hb, hS'⟩ := run_states_tail_end P o body rest g2 S₂ b S' hnm hrest'
          refine ⟨?_, ?_, hb, ?_⟩
          · rw [hS']
            by_cases he : rest.isEmpty <;> simp [he, modifyCtx_ctxs_self, hS₂state]
          · rw [hS']
            by_cases he : rest.isEmpty <;> simp [he, modifyCtx_ctxs_self, hS₂type]
          · intro body' rest' hdrop' hdist' hlen'
            rw [run_goto_unfold P o body' tn t rest' (g2 + 1) S hdrop']
            rw [run_states_latch_on P o body' t rest' g2 _ hG1 hG3 d htr]
            simp only [ha]
            rw [hsteps]
            show run P g2 (.states o body' rest') S₂ = some (b, S')
            have hnm' : ∀ st ∈ rest', (S₂.ctxs o).state ≠ st.line := by
              intro st hm
              rw [hS₂state]
              exact Ne.symm (hdist' st hm)
            have hlen2 : rest'.length < g2 := by
              rw [hlen']; exact hlen
            rw [run_states_no_match P o body' rest' g2 S₂ hnm' hlen2]
            have he : rest'.isEmpty = rest.isEmpty := by
              cases rest <;> cases rest' <;> first | rfl | simp at hlen'
            rw [he, hb, hS']
        | none =>
          simp only [ha] at hrun
          have hctx : ((modifyCtx (modifyCtx S o fun c =>
              updateState c S.currentFrameTime t.line t.type) o fun c =>
                { c with hasCommonTransition := false, stateName := t.name
                         transitionExecuted := false }).ctxs o).state = t.line := by
            rw [modifyCtx_ctxs_self]
            simpa using hG1
          have hctxt : ((modifyCtx (modifyCtx S o fun c =>
              updateState c S.currentFrameTime t.line t.type) o fun c =>
                { c with hasCommonTransition := false, stateName := t.name
                         transitionExecuted := false }).ctxs o).stateType = t.type := by
            rw [modifyCtx_ctxs_self]
            simpa using hG2
          have hnm : ∀ st ∈ rest, ((modifyCtx (modifyCtx S o fun c =>
              updateState c S.currentFrameTime t.line t.type) o fun c =>
                { c with hasCommonTransition := false, stateName := t.name
                         transitionExecuted := false }).ctxs o).state ≠ st.line := by
            intro st hm
            rw [hctx]
            exact Ne.symm (hdist st hm)
          obtain ⟨hlen, hb, hS'⟩ := run_states_tail_end P o body rest g2 _ b S' hnm hrun
          refine ⟨?_, ?_, hb, ?_⟩
          · rw [hS']
            by_cases he : rest.isEmpty <;>
              simp [he, modifyCtx_ctxs_self, updateState, Ne.symm hchange]
          · rw [hS']
            by_cases he : rest.isEmpty <;>
              simp [he, modifyCtx_ctxs_self, updateState, Ne.symm hchange]
          · intro body' rest' hdrop' hdist' hlen'
            rw [run_goto_unfold P o body' tn t rest' (g2 + 1) S hdrop']
            rw [run_states_latch_on P o body' t rest' g2 _ hG1 hG3 d htr]
            simp only [ha]
            have hnm' : ∀ st ∈ rest', ((modifyCtx (modifyCtx S o fun c =>
                updateState c S.currentFrameTime t.line t.type) o fun c =>
                  { c with hasCommonTransition := false, stateName := t.name
                           transitionExecuted := false }).ctxs o).state ≠ st.line := by
              intro st hm
              rw [hctx]
              exact Ne.symm (hdist' st hm)
            have hlen2 : rest'.length < g2 := by
              rw [hlen']; exact hlen
            rw [run_states_no_match P o body' rest' g2 _ hnm' hlen2]
            have he : rest'.isEmpty = rest.isEmpty := by
              cases rest <;> cases rest' <;> first | rfl | simp at hlen'
            rw [he, hb, hS']
      | none =>
        rw [run_states_match_no_trans P o body t rest g2 _ hG1 htr] at hrun
        cases ha : t.action with
        | some steps =>
          simp only [ha] at hrun
          rw [Option.bind_eq_some] at hrun
          obtain ⟨⟨b₁, S₂⟩, hsteps, hrest⟩ := hrun
          have hrest' : run P g2 (.states o body rest) S₂ = some (b, S') := hrest
          have hS₂ := hframe steps ha g2 _ b₁ S₂ hsteps
          have hS₂state : (S₂.ctxs o).state = t.line := by
            rw [hS₂, (addToActivationGraph_ctxs_fields _ o).1, modifyCtx_ctxs_self]
            simpa using hG1
          have hS₂type : (S₂.ctxs o).stateType = t.type := by
            rw [hS₂, (addToActivationGraph_ctxs_fields _ o).2.1, modifyCtx_ctxs_self]
            simpa using hG2
          have hnm : ∀ st ∈ rest, (S₂.ctxs o).state ≠ st.line := by
            intro st hm
            rw [hS₂state]
            exact Ne.symm (hdist st hm)
          obtain ⟨hlen, hb, hS'⟩ := run_states_tail_end P o body rest g2 S₂ b S' hnm hrest'
          refine ⟨?_, ?_, hb, ?_⟩
          · rw [hS']
            by_cases he : rest.isEmpty <;> simp [he, modifyCtx_ctxs_self, hS₂state]
          · rw [hS']
            by_cases he : rest.isEmpty <;> simp [he, modifyCtx_ctxs_self, hS₂type]
          · intro body' rest' hdrop' hdist' hlen'
            rw [run_goto_unfold P o body' tn t rest' (g2 + 1) S hdrop']
            rw [run_states_match_no_trans P o body' t rest' g2 _ hG1 htr]
            simp only [ha]
            rw [hsteps]
            show run P g2 (.states o body' rest') S₂ = some (b, S')
            have hnm' : ∀ st ∈ rest', (S₂.ctxs o).state ≠ st.line := by
              intro st hm
              rw [hS₂state]
              exact Ne.symm (hdist' st hm)
            have hlen2 : rest'.length < g2 := by
              rw [hlen']; exact hlen
            rw [run_states_no_match P o body' rest' g2 S₂ hnm' hlen2]
            have he : rest'.isEmpty = rest.isEmpty := by
              cases rest <;> cases rest' <;> first | rfl | simp at hlen'
            rw [he, hb, hS']
        | none =>
          simp only [ha] at hrun
          have hctx : ((modifyCtx (modifyCtx S o fun c =>
              updateState c S.currentFrameTime t.line t.type) o fun c =>
                { c with hasCommonTransition := false
                         stateName := t.name }).ctxs o).state = t.line := by
            rw [modifyCtx_ctxs_self]
            simpa using hG1
          have hctxt : ((modifyCtx (modifyCtx S o fun c =>
              updateState c S.currentFrameTime t.line t.type) o fun c =>
                { c with hasCommonTransition := false
                         stateName := t.name }).ctxs o).stateType = t.type := by
            rw [modifyCtx_ctxs_self]
            simpa using hG2
          have hnm : ∀ st ∈ rest, ((modifyCtx (modifyCtx S o fun c =>
              updateState c S.currentFrameTime t.line t.type) o fun c =>
                { c with hasCommonTransition := false
                         stateName := t.name }).ctxs o).state ≠ st.line := by
            intro st hm
            rw [hctx]
            exact Ne.symm (hdist st hm)
          obtain ⟨hlen, hb, hS'⟩ := run_states_tail_end P o body rest g2 _ b S' hnm hrun
          refine ⟨?_, ?_, hb, ?_⟩
          · rw [hS']
            by_cases he : rest.isEmpty <;>
              simp [he, modifyCtx_ctxs_self, updateState, Ne.symm hchange]
          · rw [hS']
            by_cases he : rest.isEmpty <;>
              simp [he, modifyCtx_ctxs_self, updateState, Ne.symm hchange]
          · intro body' rest' hdrop' hdist' hlen'
            rw [run_goto_unfold P o body' tn t rest' (g2 + 1) S hdrop']
            rw [run_states_match_no_trans P o body' t rest' g2 _ hG1 htr]
            simp only [ha]
            have hnm' : ∀ st ∈ rest', ((modifyCtx (modifyCtx S o fun c =>
                updateState c S.currentFrameTime t.line t.type) o fun c =>
                  { c with hasCommonTransition := false
                           stateName := t.name }).ctxs o).state ≠ st.line := by
              intro st hm
              rw [hctx]
              exact Ne.symm (hdist' st hm)
            have hlen2 : rest'.length < g2 := by
              rw [hlen']; exact hlen
            rw [run_states_no_match P o body' rest' g2 _ hnm' hlen2]
            have he : rest'.isEmpty = rest.isEmpty := by
              cases rest <;> cases rest' <;> first | rfl | simp at hlen'
            rw [he, hb, hS']

theorem replaceTrans_name (od : OptionDef) (v : Int)
    (d : OptionContext → Nat → Option String) :
    (replaceTrans od v d).name = od.name := rfl

theorem replaceTrans_common (od : OptionDef) (v : Int)
    (d : OptionContext → Nat → Option String) :
    (replaceTrans od v d).common = od.common := rfl

/-- Replacing the decision tree of the states with id `v` does not move
the target label of a `goto`: the `dropWhile` search finds the same head
(unchanged, since its id differs from `v`) followed by the replaced
tail. -/
theorem replaceTrans_dropWhile (od : OptionDef) (v : Int)
    (d : OptionContext → Nat → Option String) (tn : String)
    (t : StateDecl) (rest : List StateDecl)
    (hdrop : od.states.dropWhile (fun st => st.name != tn) = t :: rest)
    (hne : ¬t.line = v) :
    (replaceTrans od v d).states.dropWhile (fun st => st.name != tn) =
      t :: rest.map fun st =>
        if st.line = v then { st with trans := st.trans.map fun _ => d } else st := by
  show ((od.states.map fun st =>
      if st.line = v then { st with trans := st.trans.map fun _ => d } else st).dropWhile
        fun st => st.name != tn) = _
  rw [List.dropWhile_map]
  have hpf : ((fun st : StateDecl => st.name != tn) ∘ fun st =>
      if st.line = v then { st with trans := st.trans.map fun _ => d } else st) =
      fun st : StateDecl => st.name != tn := by
    funext st
    by_cases h : st.line = v <;> simp [Function.comp, h]
  rw [hpf, hdrop]
  simp [hne]

/-- The decision-tree replacement keeps every state id. -/
theorem replaceTrans_lines (v : Int) (d : OptionContext → Nat → Option String)
    (st : StateDecl) :
    (if st.line = v then { st with trans := st.trans.map fun _ => d } else st).line =
      st.line := by
  by_cases h : st.line = v <;> simp [h]

/-- **C1**: when an option's `common_transition` fires (its decision tree
returns a target label) and the target state differs from the current
state, the per-state `transition` block of the selected state does not
run in that cycle — the whole invocation is insensitive to every
replacement of the decision trees of the states with the entry state's id
— and after the invocation the option's current state is the common
transition's target (id and kind).  Mechanism: the `goto` runs
`updateState`, which sets the `transitionExecuted` latch
(Cabsl.h:1130-1140), so the target state's own `transition` macro
(`if((transitionExecuted ^= true))`, Cabsl.h:1975-1976) flips the latch
off and skips its decision tree, and no later `_state` macro matches. -/
theorem cabsl_common_transition_wins (P : Program) (gas : Nat) (od : OptionDef)
    (dec : OptionContext → Nat → Option String) (tn : String)
    (t : StateDecl) (rest : List StateDecl) (S : Cabsl) (b : Bool) (S' : Cabsl)
    (hcom : od.common = some dec)
    (hdec : dec ((modifyCtx (scopeEnter od.name S) od.name fun c =>
          { c with hasCommonTransition := true }).ctxs od.name)
        ((modifyCtx (scopeEnter od.name S) od.name fun c =>
          { c with hasCommonTransition := true }).currentFrameTime) = some tn)
    (hdrop : od.states.dropWhile (fun st => st.name != tn) = t :: rest)
    (hchange : t.line ≠ ((scopeEnter od.name S).ctxs od.name).state)
    (hwf : BodyWF od)
    (hframe : ∀ steps, t.action = some steps → ∀ g S₁ b₁ S₂,
        run P g (.steps steps) S₁ = some (b₁, S₂) → S₂.ctxs od.name = S₁.ctxs od.name)
    (hrun : run P gas (.invoke od false) S = some (b, S')) :
    (S'.ctxs od.name).state = t.line ∧
    (S'.ctxs od.name).stateType = t.type ∧
    ∀ d, run P gas
        (.invoke (replaceTrans od ((scopeEnter od.name S).ctxs od.name).state d) false) S =
      run P gas (.invoke od false) S := by
  cases gas with
  | zero => simp [run] at hrun
  | succ g =>
    have hrun2 := hrun
    simp only [run, hcom] at hrun2
    simp only [hdec] at hrun2
    rw [Option.map_eq_some'] at hrun2
    obtain ⟨⟨bb, Sb⟩, hbody, hout⟩ := hrun2
    simp only [Prod.mk.injEq] at hout
    obtain ⟨hb, hS'⟩ := hout
    have hchange2 : t.line ≠ ((modifyCtx (scopeEnter od.name S) od.name fun c =>
        { c with hasCommonTransition := true }).ctxs od.name).state := by
      rw [modifyCtx_ctxs_self]
      simpa using hchange
    have hsub : List.Sublist (t :: rest) od.states := by
      rw [← hdrop]
      exact List.dropWhile_sublist _
    have hpw : (t :: rest).Pairwise (fun a c => a.line ≠ c.line) := hwf.1.sublist hsub
    have hdist : ∀ st ∈ rest, st.line ≠ t.line := by
      intro st hm
      exact ((List.pairwise_cons.mp hpw).1 st hm).symm
    obtain ⟨h1, h2, h3, h4⟩ :=
      run_goto_changed P od.name tn t od rest g _ bb Sb hdrop hchange2 hdist hframe hbody
    refine ⟨?_, ?_, ?_⟩
    · rw [← hS', (scopeExit_ctxs_self_state od.name false Sb).1]
      exact h1
    · rw [← hS', (scopeExit_ctxs_self_state od.name false Sb).2]
      exact h2
    · intro d'
      rw [hrun]
      simp only [run, replaceTrans_common, hcom, replaceTrans_name]
      simp only [hdec]
      have hdrop' := replaceTrans_dropWhile od ((scopeEnter od.name S).ctxs od.name).state
        d' tn t rest hdrop hchange
      have hdist' : ∀ st ∈ rest.map (fun st =>
          if st.line = ((scopeEnter od.name S).ctxs od.name).state then
            { st with trans := st.trans.map fun _ => d' } else st), st.line ≠ t.line := by
        intro st hm
        obtain ⟨st₀, hm₀, rfl⟩ := List.mem_map.mp hm
        rw [replaceTrans_lines]
        exact hdist st₀ hm₀
      have hlen' : (rest.map (fun st =>
          if st.line = ((scopeEnter od.name S).ctxs od.name).state then
            { st with trans := st.trans.map fun _ => d' } else st)).length = rest.length :=
        List.length_map _ _
      rw [h4 _ _ hdrop' hdist' hlen']
      simp only [Option.map_some']
      rw [hb, hS']

/-- Witness for `cabsl_common_transition_wins`: the spec's "common
transition wins" scenario — option `R` is in `s1` (id 10), its common
transition unconditionally goes to `s2` (id 20) while `s1`'s own
transition would go to `s3`; after the cycle the recorded state is `s2`,
and the run is the same under every replacement of the decision trees of
the entry state. -/
theorem cabsl_common_transition_wins_witness :
    commonWinsOption.common = some (fun _ _ => some "s2") ∧
    commonWinsOption.states.dropWhile (fun st => st.name != "s2") =
      ({ name := "s2", line := 20, type := .normalState
         trans := some fun _ _ => none, action := some [] } : StateDecl) ::
      [{ name := "s3", line := 30, type := .normalState, trans := none, action := none }] ∧
    ∃ b S', run commonWinsProgram 20 (.invoke commonWinsOption false) commonWinsState =
        some (b, S') ∧
      (S'.ctxs "R").state = 20 ∧ (S'.ctxs "R").stateType = .normalState ∧
      ∀ d, run commonWinsProgram 20
          (.invoke (replaceTrans commonWinsOption
            ((scopeEnter "R" commonWinsState).ctxs "R").state d) false) commonWinsState =
        run commonWinsProgram 20 (.invoke commonWinsOption false) commonWinsState := by
  refine ⟨rfl, rfl, ?_⟩
  obtain ⟨b, S', hrun⟩ : ∃ b S',
      run commonWinsProgram 20 (.invoke commonWinsOption false) commonWinsState =
        some (b, S') := ⟨_, _, rfl⟩
  have hframe : ∀ steps,
      (({ name := "s2", line := 20, type := .normalState
          trans := some fun _ _ => none, action := some [] } : StateDecl)).action =
        some steps →
      ∀ g S₁ b₁ S₂, run commonWinsProgram g (.steps steps) S₁ = some (b₁, S₂) →
        S₂.ctxs commonWinsOption.name = S₁.ctxs commonWinsOption.name := by
    intro steps hs g S₁ b₁ S₂ hr
    injection hs with h
    subst h
    cases g with
    | zero => simp [run] at hr
    | succ g' =>
      simp only [run, Option.some.injEq, Prod.mk.injEq] at hr
      rw [hr.2]
  obtain ⟨h1, h2, h3⟩ := cabsl_common_transition_wins commonWinsProgram 20 commonWinsOption
    (fun _ _ => some "s2") "s2"
    { name := "s2", line := 20, type := .normalState
      trans := some fun _ _ => none, action := some [] }
    [{ name := "s3", line := 30, type := .normalState, trans := none, action := none }]
    commonWinsState b S' rfl rfl rfl (by decide) (by unfold BodyWF; decide)
    hframe hrun
  exact ⟨b, S', hrun, h1, h2, h3⟩

/-- `updateState` never touches the `lastFrame` stamp. -/
theorem updateState_lastFrame (c : OptionContext) (now : Nat) (ns : Int) (t : StateType) :
    (updateState c now ns t).lastFrame = c.lastFrame := by
  unfold updateState
  by_cases h : ({ c with transitionExecuted := true } : OptionContext).state ≠ ns <;> simp [h]

/-- The constructor never touches the `lastFrame` stamp (it only reads
it; `lastFrame` is written by the destructor alone, Cabsl.h:1118). -/
theorem scopeEnter_ctxs_lastFrame (n : String) (S : Cabsl) :
    ((scopeEnter n S).ctxs n).lastFrame = (S.ctxs n).lastFrame := by
  by_cases h1 : (S.ctxs n).lastFrame ≠ S.lastFrameTime ∧
      (S.ctxs n).lastFrame ≠ S.currentFrameTime <;>
    by_cases h2 : (S.ctxs n).lastSelectFrame ≠ S.lastFrameTime ∧
        (S.ctxs n).lastSelectFrame ≠ S.currentFrameTime <;>
      simp [scopeEnter, setCtx, h1, h2]

/-- A body whose states have no `action` blocks can never touch the
activation graph (the `action` macro is the only graph emission inside a
body) nor the option's `lastFrame` stamp: the fall-through and `goto`
phases only move the state machine. -/
theorem run_body_no_action_preserves (P : Program) (o : String) (body : OptionDef)
    (hact : ∀ st ∈ body.states, st.action = none) :
    ∀ (gas : Nat),
      (∀ (sts : List StateDecl) (S : Cabsl) (b : Bool) (S' : Cabsl),
        List.Sublist sts body.states →
        run P gas (.states o body sts) S = some (b, S') →
        S'.activationGraph = S.activationGraph ∧
        (S'.ctxs o).lastFrame = (S.ctxs o).lastFrame) ∧
      (∀ (tn : String) (S : Cabsl) (b : Bool) (S' : Cabsl),
        run P gas (.goto o body tn) S = some (b, S') →
        S'.activationGraph = S.activationGraph ∧
        (S'.ctxs o).lastFrame = (S.ctxs o).lastFrame) := by
  intro gas
  induction gas with
  | zero =>
    exact ⟨fun sts S b S' _ h => by simp [run] at h,
           fun tn S b S' h => by simp [run] at h⟩
  | succ g ih =>
    refine ⟨?_, ?_⟩
    · intro sts S b S' hsub hrun
      cases sts with
      | nil =>
        simp only [run, Option.some.injEq, Prod.mk.injEq] at hrun
        rw [← hrun.2]
        exact ⟨rfl, rfl⟩
      | cons st rest =>
        have hsubr : List.Sublist rest body.states :=
          (List.sublist_cons_self st rest).trans hsub
        by_cases hmatch : (S.ctxs o).state = st.line
        · have hactst : st.action = none :=
            hact st (hsub.subset (List.mem_cons_self st rest))
          simp only [run, modifyCtx_ctxs_self] at hrun
          rw [if_pos (by simpa using hmatch)] at hrun
          cases htr : st.trans with
          | some d =>
            simp only [htr, hactst] at hrun
            split at hrun
            · obtain ⟨hg, hl⟩ := ih.2 _ _ b S' hrun
              refine ⟨by rw [hg]; rfl, ?_⟩
              rw [hl]
              simp [modifyCtx_ctxs_self]
            · obtain ⟨hg, hl⟩ := ih.1 rest _ b S' hsubr hrun
              refine ⟨by rw [hg]; rfl, ?_⟩
              rw [hl]
              simp [modifyCtx_ctxs_self]
          | none =>
            simp only [htr, hactst] at hrun
            obtain ⟨hg, hl⟩ := ih.1 rest _ b S' hsubr hrun
            refine ⟨by rw [hg]; rfl, ?_⟩
            rw [hl]
            simp [modifyCtx_ctxs_self]
        · simp only [run, modifyCtx_ctxs_self] at hrun
          rw [if_neg hmatch] at hrun
          obtain ⟨hg, hl⟩ := ih.1 rest _ b S' hsubr hrun
          refine ⟨by rw [hg]; rfl, ?_⟩
          rw [hl]
          simp [modifyCtx_ctxs_self]
    · intro tn S b S' hrun
      simp only [run] at hrun
      cases hdw : body.states.dropWhile (fun st => st.name != tn) with
      | nil =>
        simp only [hdw, Option.some.injEq, Prod.mk.injEq] at hrun
        rw [← hrun.2]
        exact ⟨rfl, rfl⟩
      | cons t rest =>
        simp only [hdw] at hrun
        have hsub2 : List.Sublist (t :: rest) body.states := by
          rw [← hdw]
          exact List.dropWhile_sublist _
        obtain ⟨hg, hl⟩ := ih.1 (t :: rest) _ b S' hsub2 hrun
        refine ⟨by rw [hg]; rfl, ?_⟩
        rw [hl]
        simp [modifyCtx_ctxs_self, updateState_lastFrame]

/-- **C3** (amended): one step of `OptionInfos::execute` on a list
(Cabsl.h:1294-1300).  The empty list returns `false` with the behavior
untouched; an unregistered name is skipped; a registered option is
invoked with `fromSelect = true`, and the select stops with `true` at the
first option whose body ended in a non-initial state — regardless of the
remaining names, which are not invoked at all.  A declined option ended
in its initial state; if its body has no `action` blocks, the probe left
the activation graph unchanged and did not stamp the option's
`lastFrame` (its scope destructor skips both, Cabsl.h:1114-1118).  The
original claim's stronger clause — that every declined option is absent
from the graph — is false when a declined body itself reaches an
`action` block (see `cabsl_select_graph_counterexample`). -/
theorem cabsl_select_one_semantics (P : Program) (gas : Nat) (n : String)
    (rest : List String) (S : Cabsl) :
    run P (gas + 1) (.select []) S = some (false, S) ∧
    (registryLookup P n = none →
      run P (gas + 1) (.select (n :: rest)) S = run P gas (.select rest) S) ∧
    (∀ od, registryLookup P n = some (some od) →
      ∀ b₁ S₂, run P gas (.invoke od true) S = some (b₁, S₂) →
        run P (gas + 1) (.select (n :: rest)) S =
          (if b₁ then some (true, S₂) else run P gas (.select rest) S₂) ∧
        (b₁ = true → ∀ rest', run P (gas + 1) (.select (n :: rest')) S = some (true, S₂)) ∧
        (b₁ = false →
          (S₂.ctxs od.name).stateType = .initialState ∧
          ((∀ st ∈ od.states, st.action = none) →
            S₂.activationGraph = S.activationGraph ∧
            (S₂.ctxs od.name).lastFrame = (S.ctxs od.name).lastFrame))) := by
  refine ⟨by simp [run], fun h => by simp [run, h], ?_⟩
  intro od hod b₁ S₂ hinv
  have hsel : run P (gas + 1) (.select (n :: rest)) S =
      (if b₁ then some (true, S₂) else run P gas (.select rest) S₂) := by
    simp only [run, hod, hinv]
    rfl
  refine ⟨hsel, ?_, ?_⟩
  · intro hb1 rest'
    simp [run, hod, hinv, hb1]
  · intro hb0
    have hS2init : (S₂.ctxs od.name).stateType = .initialState := by
      obtain ⟨S₃, _, hb, _, _⟩ := run_invoke_decomp P gas od true hinv
      rw [hb0] at hb
      by_contra hne
      simp [hne] at hb
    refine ⟨hS2init, fun hact => ?_⟩
    cases gas with
    | zero => simp [run] at hinv
    | succ g =>
      simp only [run] at hinv
      rw [Option.map_eq_some'] at hinv
      obtain ⟨⟨bb, Sb⟩, hbody, hout⟩ := hinv
      simp only [Prod.mk.injEq] at hout
      obtain ⟨hbeq, hS₂⟩ := hout
      have hpres : Sb.activationGraph = S.activationGraph ∧
          (Sb.ctxs od.name).lastFrame = (S.ctxs od.name).lastFrame := by
        cases hc : od.common with
        | none =>
          simp only [hc] at hbody
          obtain ⟨hg, hl⟩ := (run_body_no_action_preserves P od.name od hact g).1
            od.states _ bb Sb (List.Sublist.refl _) hbody
          exact ⟨hg.trans (scopeEnter_activationGraph _ _),
                 hl.trans (scopeEnter_ctxs_lastFrame _ _)⟩
        | some dc =>
          simp only [hc] at hbody
          split at hbody
          · obtain ⟨hg, hl⟩ :=
              (run_body_no_action_preserves P od.name od hact g).2 _ _ bb Sb hbody
            refine ⟨hg.trans rfl, hl.trans ?_⟩
            rw [modifyCtx_ctxs_self]
            simpa using scopeEnter_ctxs_lastFrame od.name S
          · obtain ⟨hg, hl⟩ := (run_body_no_action_preserves P od.name od hact g).1
              od.states _ bb Sb (List.Sublist.refl _) hbody
            refine ⟨hg.trans rfl, hl.trans ?_⟩
            rw [modifyCtx_ctxs_self]
            simpa using scopeEnter_ctxs_lastFrame od.name S
      have hinit : (Sb.ctxs od.name).stateType = .initialState := by
        have hpr := (scopeExit_ctxs_self_state od.name true Sb).2
        rw [hS₂] at hpr
        rw [← hpr]
        exact hS2init
      obtain ⟨hgd, hld⟩ := scopeExit_declined od.name Sb hinit
      rw [hS₂] at hgd hld
      exact ⟨hgd.trans hpres.1, hld.trans hpres.2⟩

/-- Counterexample to the original **C3** graph clause: in the behavior
`selectProgram`, `select_option(["A", "B"])` declines `A` (it ends in its
initial state and stays unmarked) and selects `B`, yet `A` *is* in the
final activation graph: its initial state's `action` block added the node
before the probe was declined. -/
theorem cabsl_select_graph_counterexample :
    ∃ S', run selectProgram 50 (.select ["A", "B"]) (frame1 true) = some (true, S') ∧
      (S'.ctxs "A").stateType = .initialState ∧
      S'.activationGraph =
        some [{ option := "A", depth := 1, state := "a0"
                optionTime := 0, stateTime := 0, arguments := [] },
              { option := "B", depth := 1, state := "b1"
                optionTime := 0, stateTime := 0, arguments := [] }] :=
  ⟨_, rfl, rfl, rfl⟩

/-- Witness for `cabsl_select_one_semantics`: in `selectProgram`,
probing `A` returns `false` (it ends in its initial state) and the
select continues with the rest of the list; probing `B` returns `true`
and the select stops there whatever names follow. -/
theorem cabsl_select_one_semantics_witness :
    registryLookup selectProgram "A" = some (some decliningOption) ∧
    registryLookup selectProgram "B" = some (some leavingOption) ∧
    (∃ S₂, run selectProgram 30 (.invoke decliningOption true) (frame1 true) =
        some (false, S₂) ∧
      run selectProgram 31 (.select ["A", "B"]) (frame1 true) =
        run selectProgram 30 (.select ["B"]) S₂ ∧
      (S₂.ctxs "A").stateType = .initialState) ∧
    ∃ S₃, run selectProgram 30 (.invoke leavingOption true) (frame1 true) =
        some (true, S₃) ∧
      ∀ rest', run selectProgram 31 (.select ("B" :: rest')) (frame1 true) =
        some (true, S₃) := by
  refine ⟨rfl, rfl, ?_, ?_⟩
  · obtain ⟨S₂, hinv⟩ : ∃ S₂,
        run selectProgram 30 (.invoke decliningOption true) (frame1 true) =
          some (false, S₂) := ⟨_, rfl⟩
    obtain ⟨hsel, _, hcont⟩ :=
      (cabsl_select_one_semantics selectProgram 30 "A" ["B"] (frame1 true)).2.2
        decliningOption rfl false S₂ hinv
    refine ⟨S₂, hinv, ?_, (hcont rfl).1⟩
    simpa using hsel
  · obtain ⟨S₃, hinv⟩ : ∃ S₃,
        run selectProgram 30 (.invoke leavingOption true) (frame1 true) =
          some (true, S₃) := ⟨_, rfl⟩
    obtain ⟨_, hstop, _⟩ :=
      (cabsl_select_one_semantics selectProgram 30 "B" [] (frame1 true)).2.2
        leavingOption rfl true S₃ hinv
    exact ⟨S₃, hinv, hstop rfl⟩

/-- The constructor resets the sub-option state kind — and with it
`action_done` / `action_aborted` — exactly when the option was not
selected in the previous or current frame (Cabsl.h:1101-1106). -/
theorem scopeEnter_sub_reset (n : String) (S : Cabsl)
    (h1 : (S.ctxs n).lastSelectFrame ≠ S.lastFrameTime)
    (h2 : (S.ctxs n).lastSelectFrame ≠ S.currentFrameTime) :
    ((scopeEnter n S).ctxs n).subOptionStateType = .normalState ∧
    action_done ((scopeEnter n S).ctxs n) = false ∧
    action_aborted ((scopeEnter n S).ctxs n) = false := by
  by_cases hr : (S.ctxs n).lastFrame ≠ S.lastFrameTime ∧
      (S.ctxs n).lastFrame ≠ S.currentFrameTime <;>
    simp [scopeEnter, setCtx, hr, h1, h2, action_done, action_aborted]

/-- The constructor keeps the sub-option state kind of an option that
was selected in the previous or current frame. -/
theorem scopeEnter_sub_keep (n : String) (S : Cabsl)
    (h : (S.ctxs n).lastSelectFrame = S.lastFrameTime ∨
         (S.ctxs n).lastSelectFrame = S.currentFrameTime) :
    ((scopeEnter n S).ctxs n).subOptionStateType = (S.ctxs n).subOptionStateType := by
  have hn : ¬ ((S.ctxs n).lastSelectFrame ≠ S.lastFrameTime ∧
      (S.ctxs n).lastSelectFrame ≠ S.currentFrameTime) := by
    rcases h with h | h <;> simp [h]
  by_cases hr : (S.ctxs n).lastFrame ≠ S.lastFrameTime ∧
      (S.ctxs n).lastFrame ≠ S.currentFrameTime <;>
    simp [scopeEnter, setCtx, hr, hn]

/-- After an action block whose last sub-option invocation is a direct
call of a registered option, the engine's published state-kind slot is
that option's final state kind (it published last, Cabsl.h:1122). -/
theorem run_steps_append_last (P : Program) (nm : String) (od : OptionDef)
    (hfind : P.find? (fun o => o.name == nm) = some od) :
    ∀ (l : List ActionStep) (gas : Nat) (S : Cabsl) (b : Bool) (S' : Cabsl),
      run P gas (.steps (l ++ [.callOption nm])) S = some (b, S') →
      S'.stateType = (S'.ctxs od.name).stateType := by
  intro l
  induction l with
  | nil =>
    intro gas S b S' h
    cases gas with
    | zero => simp [run] at h
    | succ g =>
      simp only [List.nil_append, run, hfind] at h
      rw [Option.bind_eq_some] at h
      obtain ⟨⟨b₁, S₁⟩, hinv, hrest⟩ := h
      have hrest' : run P g (.steps []) S₁ = some (b, S') := hrest
      obtain ⟨S₃, _, _, hpub, _⟩ := run_invoke_decomp P g od false hinv
      cases g with
      | zero => simp [run] at hrest'
      | succ g' =>
        simp only [run, Option.some.injEq, Prod.mk.injEq] at hrest'
        rw [← hrest'.2]
        exact hpub
  | cons step l' ih =>
    intro gas S b S' h
    cases gas with
    | zero => simp [run] at h
    | succ g =>
      cases step with
      | callOption nm2 =>
        simp only [List.cons_append, run] at h
        cases hf : P.find? (fun o => o.name == nm2) with
        | some od2 =>
          simp only [hf] at h
          rw [Option.bind_eq_some] at h
          obtain ⟨⟨b₁, S₁⟩, _, hrest⟩ := h
          exact ih g S₁ b S' hrest
        | none =>
          simp only [hf] at h
          exact ih g S b S' h
      | selectOption names =>
        simp only [List.cons_append, run] at h
        rw [Option.bind_eq_some] at h
        obtain ⟨⟨b₁, S₁⟩, _, hrest⟩ := h
        exact ih g S₁ b S' hrest

/-- **C4** (amended): the scoping of the `action_done` /
`action_aborted` signals.  The macros read the context's
`subOptionStateType` (Cabsl.h:1992-1996).  That field is reset to
`NORMAL` by the scope constructor exactly when the option was not
selected in the previous or current frame — after two or more cycles of
inactivity both signals are `false` — and kept otherwise.  At scope
destruction the engine's single published state-kind slot is grabbed
into the field and overwritten with this option's own final state kind;
after an action block whose last sub-option invocation is a direct call
of a registered option, the slot holds that option's final kind, so the
parent's next destruction grabs the kind of the *last* sub-option it
invoked.  The original claim's "iff" is false: the slot is never cleared
between cycles, so an option that invoked *no* sub-option can still see
`action_done = true` from its own previously published kind (see
`cabsl_action_done_counterexample`). -/
theorem cabsl_action_done_scoping (P : Program) (n : String) (S : Cabsl)
    (gas : Nat) (od : OptionDef) (fs : Bool) (b : Bool) (S' : Cabsl) :
    ((S.ctxs n).lastSelectFrame ≠ S.lastFrameTime →
     (S.ctxs n).lastSelectFrame ≠ S.currentFrameTime →
      ((scopeEnter n S).ctxs n).subOptionStateType = .normalState ∧
      action_done ((scopeEnter n S).ctxs n) = false ∧
      action_aborted ((scopeEnter n S).ctxs n) = false) ∧
    ((S.ctxs n).lastSelectFrame = S.lastFrameTime ∨
     (S.ctxs n).lastSelectFrame = S.currentFrameTime →
      ((scopeEnter n S).ctxs n).subOptionStateType = (S.ctxs n).subOptionStateType) ∧
    (run P gas (.invoke od fs) S = some (b, S') →
      S'.stateType = (S'.ctxs od.name).stateType ∧
      ∃ S₃, S' = scopeExit od.name fs S₃ ∧
        (S'.ctxs od.name).subOptionStateType = S₃.stateType) ∧
    (∀ nm odl (l : List ActionStep),
      P.find? (fun o => o.name == nm) = some odl →
      run P gas (.steps (l ++ [.callOption nm])) S = some (b, S') →
      S'.stateType = (S'.ctxs odl.name).stateType) ∧
    (∀ c, action_done c = (c.subOptionStateType == StateType.targetState) ∧
          action_aborted c = (c.subOptionStateType == StateType.abortedState)) := by
  refine ⟨fun h1 h2 => scopeEnter_sub_reset n S h1 h2,
          fun h => scopeEnter_sub_keep n S h, ?_, ?_, fun c => ⟨rfl, rfl⟩⟩
  · intro hrun
    obtain ⟨S₃, hS', _, hpub, hgrab⟩ := run_invoke_decomp P gas od fs hrun
    exact ⟨hpub, S₃, hS', hgrab⟩
  · intro nm odl l hfind hrun
    exact run_steps_append_last P nm odl hfind l gas S b S' hrun

/-- Counterexample to the original **C4** "iff": option `T` of
`doneProgram` never invokes any sub-option (no state has an `action`
block), yet in the third consecutive cycle `action_done` evaluates to
`true` inside its body: `T` reached its target state in cycle 1, its
destructor published `targetState` into the engine's never-cleared slot,
and its cycle-2 destructor grabbed that stale value back into `T`'s own
`subOptionStateType`. -/
theorem cabsl_action_done_counterexample :
    (∀ st ∈ doneOption.states, st.action = none) ∧
    ∃ S₁ S₂ S₃ S₄ S₅,
      beginFrame doneProgram noFiles 1 (initialCabsl false) = .ok S₁ ∧
      (∃ b, run doneProgram 20 (.invoke doneOption false) S₁ = some (b, S₂)) ∧
      beginFrame doneProgram noFiles 2 (endFrame S₂) = .ok S₃ ∧
      (∃ b, run doneProgram 20 (.invoke doneOption false) S₃ = some (b, S₄)) ∧
      beginFrame doneProgram noFiles 3 (endFrame S₄) = .ok S₅ ∧
      action_done ((scopeEnter "T" S₅).ctxs "T") = true := by
  refine ⟨by intro st hm; fin_cases hm <;> rfl, ?_⟩
  exact ⟨_, _, _, _, _, rfl, ⟨_, rfl⟩, rfl, ⟨_, rfl⟩, rfl, rfl⟩

/-- Witness for `cabsl_action_done_scoping`: the reset clause on a fresh
option, the continuity clause on a continuously selected option, the
destruction clause on option `B` of `selectProgram`, and the last-sub
clause on an action block calling `B`. -/
theorem cabsl_action_done_scoping_witness :
    (((frame1 false).ctxs "T").lastSelectFrame ≠ (frame1 false).lastFrameTime ∧
     ((frame1 false).ctxs "T").lastSelectFrame ≠ (frame1 false).currentFrameTime ∧
     ((scopeEnter "T" (frame1 false)).ctxs "T").subOptionStateType = .normalState ∧
     action_done ((scopeEnter "T" (frame1 false)).ctxs "T") = false ∧
     action_aborted ((scopeEnter "T" (frame1 false)).ctxs "T") = false) ∧
    ((commonWinsState.ctxs "R").lastSelectFrame = commonWinsState.lastFrameTime ∧
     ((scopeEnter "R" commonWinsState).ctxs "R").subOptionStateType =
       (commonWinsState.ctxs "R").subOptionStateType) ∧
    (∃ b S', run selectProgram 20 (.invoke leavingOption false) (frame1 true) =
        some (b, S') ∧
      S'.stateType = (S'.ctxs "B").stateType ∧
      ∃ S₃, S' = scopeExit "B" false S₃ ∧
        (S'.ctxs "B").subOptionStateType = S₃.stateType) ∧
    (List.find? (fun o => o.name == "B") selectProgram = some leavingOption ∧
     ∃ b S', run selectProgram 20 (.steps [.callOption "B"]) (frame1 true) =
        some (b, S') ∧
      S'.stateType = (S'.ctxs "B").stateType) := by
  refine ⟨⟨by decide, by decide, ?_⟩, ⟨rfl, ?_⟩, ?_, rfl, ?_⟩
  · exact (cabsl_action_done_scoping selectProgram "T" (frame1 false) 0
      leavingOption false false (frame1 false)).1 (by decide) (by decide)
  · exact (cabsl_action_done_scoping selectProgram "R" commonWinsState 0
      leavingOption false false commonWinsState).2.1 (Or.inl rfl)
  · obtain ⟨b, S', hrun⟩ : ∃ b S',
        run selectProgram 20 (.invoke leavingOption false) (frame1 true) =
          some (b, S') := ⟨_, _, rfl⟩
    obtain ⟨hpub, S₃, hS', hgrab⟩ :=
      (cabsl_action_done_scoping selectProgram "B" (frame1 true) 20
        leavingOption false b S').2.2.1 hrun
    exact ⟨b, S', hrun, hpub, S₃, hS', hgrab⟩
  · obtain ⟨b, S', hrun⟩ : ∃ b S',
        run selectProgram 20 (.steps [.callOption "B"]) (frame1 true) =
          some (b, S') := ⟨_, _, rfl⟩
    exact ⟨b, S', hrun,
      (cabsl_action_done_scoping selectProgram "B" (frame1 true) 20
        leavingOption false b S').2.2.2.1 "B" leavingOption [] rfl hrun⟩
